import Mathlib

/-!
Verification development for the flight-search fetch–cache–enrich–normalize–filter
pipeline (`src/flight_search/flight_fetcher.py` and `src/flight_search/result_processor.py`).

The Python code is shallowly embedded: dictionaries become structures (a key read with
`d.get(k, default)` becomes a field of the default's type, a key read with `d.get(k)`
becomes an `Option` field), stateful file-backed resources (usage counter, response
cache) become explicit state passing over a `FetchState`, the external SerpAPI endpoint
becomes an oracle function `Params → UpstreamResp` supplied as a parameter, and
fallible operations return `Option`.  Python string truthiness (`if s:`) is embedded as
`s ≠ ""`, and `Optional[str]` truthiness as `(o.getD "") ≠ ""`.
-/

namespace FlightSearch

/-- Rendering of a Python `Optional[str]` inside an f-string: `None` prints as "None". -/
def optStr : Option String → String
  | none => "None"
  | some s => s

/-- Substring containment on character lists, the embedding of Python's `in` operator
on strings (an empty needle is contained in everything, as in Python). -/
def containsSub (hay needle : List Char) : Bool :=
  needle.isPrefixOf hay ||
    match hay with
    | [] => false
    | _ :: t => containsSub t needle

/-- Substring containment on strings: `strContainsSub hay needle` embeds
`needle in hay` from Python. -/
def strContainsSub (hay needle : String) : Bool :=
  containsSub hay.toList needle.toList

/-- ASCII lower-casing of one character (the strings this program lower-cases
— airline names, API error texts — are ASCII; Python's Unicode-aware `.lower()`
agrees with this on them). -/
def charLower (c : Char) : Char :=
  match c with
  | 'A' => 'a' | 'B' => 'b' | 'C' => 'c' | 'D' => 'd' | 'E' => 'e' | 'F' => 'f'
  | 'G' => 'g' | 'H' => 'h' | 'I' => 'i' | 'J' => 'j' | 'K' => 'k' | 'L' => 'l'
  | 'M' => 'm' | 'N' => 'n' | 'O' => 'o' | 'P' => 'p' | 'Q' => 'q' | 'R' => 'r'
  | 'S' => 's' | 'T' => 't' | 'U' => 'u' | 'V' => 'v' | 'W' => 'w' | 'X' => 'x'
  | 'Y' => 'y' | 'Z' => 'z' | _ => c

/-- ASCII upper-casing of one character (`str.upper()` on the airport and
airline codes this program upper-cases). -/
def charUpper (c : Char) : Char :=
  match c with
  | 'a' => 'A' | 'b' => 'B' | 'c' => 'C' | 'd' => 'D' | 'e' => 'E' | 'f' => 'F'
  | 'g' => 'G' | 'h' => 'H' | 'i' => 'I' | 'j' => 'J' | 'k' => 'K' | 'l' => 'L'
  | 'm' => 'M' | 'n' => 'N' | 'o' => 'O' | 'p' => 'P' | 'q' => 'Q' | 'r' => 'R'
  | 's' => 'S' | 't' => 'T' | 'u' => 'U' | 'v' => 'V' | 'w' => 'W' | 'x' => 'X'
  | 'y' => 'Y' | 'z' => 'Z' | _ => c

/-- `str.lower()`. -/
def strLower (s : String) : String := String.mk (s.toList.map charLower)

/-- `str.upper()`. -/
def strUpper (s : String) : String := String.mk (s.toList.map charUpper)

/- ────────────────────────────────────────────────────────────────────────────
Data model: the raw SerpAPI payload shapes read by the pipeline.
──────────────────────────────────────────────────────────────────────────── -/

/-- One flight segment, the fields of the per-flight dicts read by the code.
The nested `departure_airport` / `arrival_airport` dicts are flattened: the code
only ever reads their `id` (with default `""`) and `time` fields.  `time` is kept
as an `Option` because the return-leg path reads it with `.get("time")` (no
default), distinguishing a missing key (`None`) from an empty string. -/
structure Segment where
  airline : String := ""
  flight_number : String := ""
  airplane : String := ""
  legroom : String := ""
  extensions : List String := []
  departure_id : String := ""
  departure_time : Option String := none
  arrival_id : String := ""
  arrival_time : Option String := none
  travel_class : Option String := none
deriving DecidableEq

instance : Inhabited Segment := ⟨{}⟩

/-- One layover dict: duration in minutes (read with default 0), airport `id`
falling back to `name` falling back to `"?"`, and an `overnight` truthiness flag. -/
structure Layover where
  duration : Nat := 0
  lay_id : Option String := none
  name : Option String := none
  overnight : Bool := false
deriving DecidableEq

/-- One SerpAPI flight group.  `carbon_this_flight` flattens the
`carbon_emissions.this_flight` gram count (the source converts it to kilograms
with `round(g / 1000, 1)`, a floating-point operation; we carry the exact gram
count, of which the source's value is a function, since no claim inspects it).
The `return_*` fields are those attached in place by the round-trip enrichment
step. -/
structure FlightGroup where
  flights : List Segment := []
  layovers : List Layover := []
  price : Option Int := none
  total_duration : Option Int := none
  carbon_this_flight : Option Int := none
  departure_token : Option String := none
  airline_logo : Option String := none
  extensions : List String := []
  return_flights : List Segment := []
  return_layovers : List Layover := []
  return_total_duration : Option Int := none
  return_airline_logo : Option String := none
  return_extensions_att : List String := []
deriving DecidableEq

/-- The `combo` sub-dict recorded inside an independent-one-way unit. -/
structure ComboInfo where
  departure_id : String
  arrival_id : String
  outbound_date : String
  return_date : Option String
deriving DecidableEq

/-- The shapes of the raw response dicts that `fetch_all` produces and
`process_results` consumes: the empty dict `{}`, the
`{"__fatal_error__": msg}` sentinel, a normal SerpAPI response with its
`best_flights` / `other_flights` arrays, and an `__independent_one_way__` unit. -/
inductive RawResponse where
  | empty : RawResponse
  | fatal (msg : String) : RawResponse
  | flights (best other : List FlightGroup) : RawResponse
  | independent (combo : ComboInfo) (outbound_groups return_groups : List FlightGroup) : RawResponse
deriving DecidableEq

/-- `models.SearchCombination`. -/
structure SearchCombination where
  departure_id : String
  arrival_id : String
  outbound_date : String
  return_date : Option String := none
  type : Nat := 1
  travel_class : Nat := 1
  adults : Nat := 1
  children : Nat := 0
  stops : Nat := 0
  include_airlines : Option String := none
  exclude_airlines : Option String := none
  max_price : Option Int := none
  max_duration : Option Int := none
  bags : Nat := 0
  sort_by : Nat := 2
  outbound_times : Option String := none
  return_times : Option String := none
deriving DecidableEq

/-- `models.PostFilter`; the two `Literal` alternatives are embedded as strings. -/
structure PostFilter where
  filter_type : String
  value : String
  leg : String := "any"
deriving DecidableEq

/-- `models.FlightResult`.  `emissions_g` carries the raw gram count (see
`FlightGroup.carbon_this_flight`); the unused private `_dedup_key` field is
omitted. -/
structure FlightResult where
  itinerary_type : String := "round_trip"
  origin : String
  destination : String
  airline : String
  flight_numbers : String
  depart_time : String
  arrive_time : String
  return_depart_time : Option String := none
  return_arrive_time : Option String := none
  stops : Nat
  return_stops : Option Nat := none
  layover_info : String
  return_layover_info : Option String := none
  total_duration_mins : Int
  return_total_duration_mins : Option Int := none
  price : Int
  outbound_price : Option Int := none
  return_price : Option Int := none
  total_price : Option Int := none
  currency : String
  travel_class : String
  emissions_g : Option Int := none
  airplane : String
  return_airplane : Option String := none
  legroom : String
  return_legroom : Option String := none
  extensions : String
  return_flight_numbers : Option String := none
  return_airline : Option String := none
  return_extensions : Option String := none
  preferred : Bool := false
deriving DecidableEq

/- ────────────────────────────────────────────────────────────────────────────
result_processor.py
──────────────────────────────────────────────────────────────────────────── -/

/-- `_fmt_duration`: format minutes as `"5h 42m"` (two-digit minutes). -/
def fmtDuration (minutes : Nat) : String :=
  let h := minutes / 60
  let m := minutes % 60
  toString h ++ "h " ++ (if m < 10 then "0" ++ toString m else toString m) ++ "m"

/-- The repeated accumulation loop `if v and v not in acc: acc.append(v)` over the
segments of a group, for a projected string field. -/
def collectDistinct (f : Segment → String) (segs : List Segment) : List String :=
  segs.foldl (fun acc s => let v := f s; if v ≠ "" ∧ v ∉ acc then acc ++ [v] else acc) []

/-- The accumulation loop `if fn: flight_numbers.append(fn)` (duplicates kept). -/
def collectFlightNumbers (segs : List Segment) : List String :=
  segs.foldl (fun acc s => if s.flight_number ≠ "" then acc ++ [s.flight_number] else acc) []

/-- The nested loop collecting each segment's `extensions` entries first-seen
distinct (`if ext not in extensions_all: append`). -/
def collectExts (segs : List Segment) : List String :=
  segs.foldl (fun acc s =>
    s.extensions.foldl (fun a e => if e ∉ a then a ++ [e] else a) acc) []

/-- One layover rendered as in `_process_flight_group`:
duration, `" at "`, airport code, optional `" (overnight)"`. -/
def layoverStr (lv : Layover) : String :=
  fmtDuration lv.duration ++ " at " ++ lv.lay_id.getD (lv.name.getD "?") ++
    (if lv.overnight then " (overnight)" else "")

/-- `_process_flight_group`: convert one flight group into a `FlightResult`,
or `none` when the group has no segments. -/
def processFlightGroup (group : FlightGroup) : Option FlightResult :=
  match group.flights with
  | [] => none
  | first :: rest =>
    let segments := first :: rest
    let last := segments.getLastD first
    let airlines := collectDistinct (·.airline) segments
    let flightNumbers := collectFlightNumbers segments
    let airplanes := collectDistinct (·.airplane) segments
    let legrooms := collectDistinct (·.legroom) segments
    let extensionsAll := collectExts segments
    let layoverParts := group.layovers.map layoverStr
    let retSegs := group.return_flights
    let retFirst := retSegs.headD default
    let retLast := retSegs.getLastD default
    let retAirlines := collectDistinct (·.airline) retSegs
    let retFlightNumbers := collectFlightNumbers retSegs
    let retAirplanes := collectDistinct (·.airplane) retSegs
    let retLegrooms := collectDistinct (·.legroom) retSegs
    let retExtensionsAll := collectExts retSegs
    let retLayoverParts := group.return_layovers.map layoverStr
    some {
      itinerary_type := "round_trip"
      origin := first.departure_id
      destination := last.arrival_id
      airline := String.intercalate ", " airlines
      flight_numbers := String.intercalate " / " flightNumbers
      depart_time := first.departure_time.getD ""
      arrive_time := last.arrival_time.getD ""
      return_depart_time := if retSegs = [] then none else retFirst.departure_time
      return_arrive_time := if retSegs = [] then none else retLast.arrival_time
      stops := segments.length - 1
      return_stops := if retSegs = [] then none else some (retSegs.length - 1)
      layover_info := String.intercalate "; " layoverParts
      return_layover_info :=
        if retLayoverParts = [] then none else some (String.intercalate "; " retLayoverParts)
      total_duration_mins := group.total_duration.getD 0
      return_total_duration_mins := group.return_total_duration
      price := group.price.getD 0
      outbound_price := group.price
      total_price := group.price
      currency := "USD"
      travel_class := first.travel_class.getD "Economy"
      emissions_g := group.carbon_this_flight
      airplane := String.intercalate ", " airplanes
      return_airplane :=
        if retAirplanes = [] then none else some (String.intercalate ", " retAirplanes)
      legroom := String.intercalate ", " legrooms
      return_legroom :=
        if retLegrooms = [] then none else some (String.intercalate ", " retLegrooms)
      extensions := String.intercalate ", " extensionsAll
      return_flight_numbers :=
        if retFlightNumbers = [] then none else some (String.intercalate " / " retFlightNumbers)
      return_airline :=
        if retAirlines = [] then none else some (String.intercalate ", " retAirlines)
      return_extensions :=
        if retExtensionsAll = [] then none else some (String.intercalate ", " retExtensionsAll)
      preferred := false }

/-- The dict built by `_extract_group_leg`. -/
structure GroupLeg where
  origin : String
  destination : String
  airline : String
  flight_numbers : String
  depart_time : String
  arrive_time : String
  stops : Nat
  layover_info : String
  duration : Int
  price : Int
  travel_class : String
deriving DecidableEq

/-- One layover rendered as in `_extract_group_leg` (no overnight annotation). -/
def layoverStrLeg (lv : Layover) : String :=
  fmtDuration lv.duration ++ " at " ++ lv.lay_id.getD (lv.name.getD "?")

/-- `_extract_group_leg`: core details of a one-way group, `none` when it has no
segments. -/
def extractGroupLeg (group : FlightGroup) : Option GroupLeg :=
  match group.flights with
  | [] => none
  | first :: rest =>
    let segments := first :: rest
    let last := segments.getLastD first
    some {
      origin := first.departure_id
      destination := last.arrival_id
      airline := String.intercalate ", " (collectDistinct (·.airline) segments)
      flight_numbers := String.intercalate " / " (collectFlightNumbers segments)
      depart_time := first.departure_time.getD ""
      arrive_time := last.arrival_time.getD ""
      stops := segments.length - 1
      layover_info := String.intercalate "; " (group.layovers.map layoverStrLeg)
      duration := group.total_duration.getD 0
      price := group.price.getD 0
      travel_class := first.travel_class.getD "Economy" }

/-- The `FlightResult` built for one outbound/return leg pair inside
`_build_independent_pairs`. -/
def mkPairResult (ol rl : GroupLeg) : FlightResult :=
  { itinerary_type := "independent_one_way"
    origin := ol.origin
    destination := ol.destination
    airline := ol.airline
    flight_numbers := ol.flight_numbers
    depart_time := ol.depart_time
    arrive_time := ol.arrive_time
    return_depart_time := some rl.depart_time
    return_arrive_time := some rl.arrive_time
    stops := ol.stops
    return_stops := some rl.stops
    layover_info := ol.layover_info
    return_layover_info := some rl.layover_info
    total_duration_mins := ol.duration
    return_total_duration_mins := some rl.duration
    price := ol.price + rl.price
    outbound_price := some ol.price
    return_price := some rl.price
    total_price := some (ol.price + rl.price)
    currency := "USD"
    travel_class := ol.travel_class
    emissions_g := none
    airplane := ""
    return_airplane := none
    legroom := ""
    return_legroom := none
    extensions := ""
    return_flight_numbers := some rl.flight_numbers
    return_airline := some rl.airline
    return_extensions := none
    preferred := false }

/-- `_build_independent_pairs`: cross the first 3 outbound groups with the first 3
return groups, skipping groups whose leg extraction fails. -/
def buildIndependentPairs (response : RawResponse) : List FlightResult :=
  match response with
  | .independent _ outbound_groups return_groups =>
    if outbound_groups = [] ∨ return_groups = [] then []
    else
      (outbound_groups.take 3).flatMap fun out_g =>
        match extractGroupLeg out_g with
        | none => []
        | some out_leg =>
          (return_groups.take 3).filterMap fun ret_g =>
            (extractGroupLeg ret_g).map fun ret_leg => mkPairResult out_leg ret_leg
  | _ => []

/-- The dedup key string of `process_results`:
`f"{itinerary_type}|{flight_numbers}|{depart_time}|{return_flight_numbers}|{return_depart_time}"`. -/
def dedupKey (r : FlightResult) : String :=
  r.itinerary_type ++ "|" ++ r.flight_numbers ++ "|" ++ r.depart_time ++ "|" ++
    optStr r.return_flight_numbers ++ "|" ++ optStr r.return_depart_time

/-- The tuple the spec names as the deduplication key. -/
def keyTuple (r : FlightResult) : String × String × String × Option String × Option String :=
  (r.itinerary_type, r.flight_numbers, r.depart_time,
   r.return_flight_numbers, r.return_depart_time)

/-- The `FlightResult`s one raw response contributes, in order, before
deduplication: an empty dict is skipped, an independent unit goes through
`_build_independent_pairs`, any other dict contributes the groups of
`best_flights ++ other_flights` (so a fatal sentinel contributes nothing). -/
def respResults (response : RawResponse) : List FlightResult :=
  match response with
  | .empty => []
  | .fatal _ => []
  | .independent c o r => buildIndependentPairs (.independent c o r)
  | .flights best other => (best ++ other).filterMap processFlightGroup

/-- The shared `seen`-set threading of `process_results`: keep the results whose
dedup key has not been seen, recording keys as they are kept. -/
def dedupInto (seen : List String) : List FlightResult → List FlightResult × List String
  | [] => ([], seen)
  | r :: rs =>
    if dedupKey r ∈ seen then dedupInto seen rs
    else ((r :: (dedupInto (dedupKey r :: seen) rs).1), (dedupInto (dedupKey r :: seen) rs).2)

/-- The response loop of `process_results`, threading the `seen` set. -/
def processResultsAux (seen : List String) : List RawResponse → List FlightResult
  | [] => []
  | resp :: rest =>
    (dedupInto seen (respResults resp)).1 ++
      processResultsAux (dedupInto seen (respResults resp)).2 rest

/-- `process_results`: all responses, deduplicated with an initially empty
`seen` set. -/
def processResults (raw_responses : List RawResponse) : List FlightResult :=
  processResultsAux [] raw_responses

/- ────────────────────────────────────────────────────────────────────────────
Post filters (result_processor.py, apply_post_filters)
──────────────────────────────────────────────────────────────────────────── -/

/-- A parsed naive datetime, compared field-lexicographically as Python
`datetime` comparison does. -/
structure DateTimeV where
  year : Nat
  month : Nat
  day : Nat
  hour : Nat
  minute : Nat
  second : Nat
deriving DecidableEq

/-- Strict datetime comparison (`<`), lexicographic on the six fields. -/
def dtLt (a b : DateTimeV) : Bool :=
  if a.year ≠ b.year then decide (a.year < b.year)
  else if a.month ≠ b.month then decide (a.month < b.month)
  else if a.day ≠ b.day then decide (a.day < b.day)
  else if a.hour ≠ b.hour then decide (a.hour < b.hour)
  else if a.minute ≠ b.minute then decide (a.minute < b.minute)
  else decide (a.second < b.second)

/-- Numeric value of a decimal digit character. -/
def digitVal (c : Char) : Option Nat :=
  if c.isDigit then some (c.toNat - 48) else none

/-- Two decimal digits. -/
def parse2 (c1 c2 : Char) : Option Nat := do
  let a ← digitVal c1
  let b ← digitVal c2
  pure (10 * a + b)

/-- Gregorian leap-year rule, as `datetime` validates dates with it. -/
def isLeapYear (y : Nat) : Bool := decide ((y % 4 = 0 ∧ y % 100 ≠ 0) ∨ y % 400 = 0)

/-- Days in a month of a given year. -/
def daysInMonth (y m : Nat) : Nat :=
  if m = 2 then (if isLeapYear y then 29 else 28)
  else if m = 4 ∨ m = 6 ∨ m = 9 ∨ m = 11 then 30
  else 31

/-- The `HH:MM` or `HH:MM:SS` tail of an ISO datetime, with range validation. -/
def parseTimePart : List Char → Option (Nat × Nat × Nat)
  | [h1, h2, ':', m1, m2] => do
    let h ← parse2 h1 h2
    let mi ← parse2 m1 m2
    if h ≤ 23 ∧ mi ≤ 59 then pure (h, mi, 0) else none
  | [h1, h2, ':', m1, m2, ':', s1, s2] => do
    let h ← parse2 h1 h2
    let mi ← parse2 m1 m2
    let se ← parse2 s1 s2
    if h ≤ 23 ∧ mi ≤ 59 ∧ se ≤ 59 then pure (h, mi, se) else none
  | _ => none

/-- Embedding of `datetime.fromisoformat` restricted to the shapes this program
feeds it: `YYYY-MM-DD`, optionally followed by a `T` or space separator and
`HH:MM` or `HH:MM:SS` (fractional seconds and timezone offsets, which the
library also accepts, never appear in this pipeline's data and are parsed as
failures here). Invalid calendar dates or out-of-range times fail, as the
library raises `ValueError` for them. -/
def parseISODT (s : String) : Option DateTimeV :=
  match s.toList with
  | y1 :: y2 :: y3 :: y4 :: '-' :: m1 :: m2 :: '-' :: d1 :: d2 :: rest => do
    let a ← digitVal y1
    let b ← digitVal y2
    let c ← digitVal y3
    let d ← digitVal y4
    let y := 1000 * a + 100 * b + 10 * c + d
    let mo ← parse2 m1 m2
    let da ← parse2 d1 d2
    if 1 ≤ mo ∧ mo ≤ 12 ∧ 1 ≤ da ∧ da ≤ daysInMonth y mo then
      match rest with
      | [] => pure ⟨y, mo, da, 0, 0, 0⟩
      | sep :: timeRest =>
        if sep = 'T' ∨ sep = ' ' then do
          let t ← parseTimePart timeRest
          pure ⟨y, mo, da, t.1, t.2.1, t.2.2⟩
        else none
    else none
  | _ => none

/-- `_airline_matches`: case-insensitive substring match of the needle against
the airline field of the leg(s) selected by `leg`. -/
def airlineMatches (r : FlightResult) (needle : String) (leg : String) : Bool :=
  let outMatch := strContainsSub (strLower r.airline) needle
  let retMatch := strContainsSub (strLower (r.return_airline.getD "")) needle
  if leg = "outbound" then outMatch
  else if leg = "return" then retMatch
  else outMatch || retMatch

/-- The first `keep` update of the `arrival_before` loop body: the outbound
check, run when the leg scope selects outbound and the arrival string is
truthy; an unparseable timestamp leaves `keep` untouched (the
`except ValueError: pass`). -/
def arrivalKeepOut (leg : String) (deadline : DateTimeV) (r : FlightResult)
    (keep : Bool) : Bool :=
  if (leg = "outbound" ∨ leg = "any") ∧ r.arrive_time ≠ "" then
    match parseISODT r.arrive_time with
    | some arr => if dtLt deadline arr then false else keep
    | none => keep
  else keep

/-- The second `keep` update: the return-leg check, run when the leg scope
selects return, the return arrival is truthy, and `keep` still holds. -/
def arrivalKeepRet (leg : String) (deadline : DateTimeV) (r : FlightResult)
    (keep : Bool) : Bool :=
  if (leg = "return" ∨ leg = "any") ∧ (r.return_arrive_time.getD "") ≠ "" ∧ keep = true then
    match parseISODT (r.return_arrive_time.getD "") with
    | some retArr => if dtLt deadline retArr then false else keep
    | none => keep
  else keep

/-- The per-result `keep` computation of the `arrival_before` branch of
`apply_post_filters`: start from `keep = True`, run the outbound check, then
the return check. -/
def arrivalKeep (leg : String) (deadline : DateTimeV) (r : FlightResult) : Bool :=
  arrivalKeepRet leg deadline r (arrivalKeepOut leg deadline r true)

/-- `apply_post_filters`: fold the filters over the result list. The airline
filter partitions, flags the matches and puts them first; the arrival filter
keeps the results passing `arrivalKeep`, and is skipped entirely when its
deadline does not parse. -/
def applyPostFilters (results : List FlightResult) (post_filters : List PostFilter) :
    List FlightResult :=
  match post_filters with
  | [] => results
  | pf :: rest =>
    applyPostFilters
      (if pf.filter_type = "at_least_one_leg_airline" then
        ((results.filter fun r => airlineMatches r (strLower pf.value) pf.leg).map
          fun r => { r with preferred := true }) ++
        (results.filter fun r => !airlineMatches r (strLower pf.value) pf.leg)
      else if pf.filter_type = "arrival_before" then
        match parseISODT pf.value with
        | none => results
        | some deadline => results.filter (arrivalKeep pf.leg deadline)
      else results) rest

/-- The keep verdict one leg's arrival contributes under a deadline: an
unparseable timestamp never removes, a parsed arrival removes exactly when it
is strictly after the deadline.  Used to state the post-filter theorems. -/
def legArrOK (d : DateTimeV) (p : Option DateTimeV) : Bool :=
  match p with
  | some arr => !dtLt d arr
  | none => true

/- ────────────────────────────────────────────────────────────────────────────
flight_fetcher.py: parameters, usage tracking, cache, orchestration.
──────────────────────────────────────────────────────────────────────────── -/

/-- SerpAPI query parameters: a Python dict of string keys and string values,
embedded as an insertion-ordered association list with distinct keys. -/
abbrev Params := List (String × String)

/-- Dict key read: `d.get(k)`. -/
def getParam (ps : Params) (k : String) : Option String :=
  match ps with
  | [] => none
  | (k', v) :: rest => if k' = k then some v else getParam rest k

/-- Dict key write `d[k] = v`: replaces in place when the key exists, appends
otherwise (Python dicts keep insertion order). -/
def setParam (ps : Params) (k v : String) : Params :=
  match ps with
  | [] => [(k, v)]
  | (k', v') :: rest => if k' = k then (k, v) :: rest else (k', v') :: setParam rest k v

/-- Dict key removal `d.pop(k, None)`. -/
def popParam (ps : Params) (k : String) : Params :=
  ps.filter fun p => p.1 ≠ k

/-- Strict lexicographic comparison of character lists by code point — the
comparison Python applies to strings. -/
def listLtb : List Char → List Char → Bool
  | [], [] => false
  | [], _ :: _ => true
  | _ :: _, [] => false
  | a :: as, b :: bs =>
    if a.toNat < b.toNat then true
    else if b.toNat < a.toNat then false
    else listLtb as bs

/-- Strict string comparison by code points. -/
def strLtb (s t : String) : Bool := listLtb s.toList t.toList

/-- Python's ordering on `(str, str)` tuples: by first component, ties broken
by the second. -/
def pairLe (a b : String × String) : Prop :=
  strLtb a.1 b.1 = true ∨ (a.1 = b.1 ∧ (strLtb a.2 b.2 = true ∨ a.2 = b.2))

instance : DecidableRel pairLe := fun a b => by
  unfold pairLe
  infer_instance

/-- Ascending sort of the parameter items, the `sorted(params.items())` step
(Python's `sorted` computes the same list for this total antisymmetric order). -/
def sortPairs (l : List (String × String)) : List (String × String) :=
  List.insertionSort pairLe l

/-- `_cache_key` up to the final hash: sort the items, drop `api_key`.  The
source SHA-256-hashes the JSON serialization of this canonical association
list; since both serialization and hash are functions, two parameter sets get
the same hash whenever their canonical lists are equal, so the canonical list
itself serves as the cache key in this embedding. -/
def cacheKeyCanon (params : Params) : List (String × String) :=
  (sortPairs params).filter fun p => p.1 ≠ "api_key"

/-- Configuration constants from `config.py` plus the `--no-cache` flag. -/
structure Config where
  SERPAPI_KEY : String := ""
  SERPAPI_MONTHLY_LIMIT : Nat := 250
  SERPAPI_CACHE_TTL_HOURS : Int := 12
  NO_CACHE : Bool := false
deriving DecidableEq

/-- One persisted cache entry: `{timestamp, response}` where the response
carries the `best_flights` and `other_flights` arrays the code reads back. -/
structure CacheEntry where
  timestamp : Int
  response : List FlightGroup × List FlightGroup
deriving DecidableEq

/-- The file-backed mutable resources threaded through the fetcher, plus `now`
(the clock, constant within a run) and `calls`, a ghost log of every upstream
`GoogleSearch` invocation, used to state which external calls were attempted.
The month-rollover reset of the usage file is not exercised within a single
run (the clock is constant), so only the counter is carried. -/
structure FetchState where
  usageCount : Nat
  cache : List (List (String × String) × CacheEntry)
  now : Int
  calls : List Params := []
deriving DecidableEq

/-- Association-list read of the cache file. -/
def assocGet (cache : List (List (String × String) × CacheEntry))
    (k : List (String × String)) : Option CacheEntry :=
  match cache with
  | [] => none
  | (k', e) :: rest => if k' = k then some e else assocGet rest k

/-- Association-list write of the cache file (replace or append). -/
def assocSet (cache : List (List (String × String) × CacheEntry))
    (k : List (String × String)) (e : CacheEntry) :
    List (List (String × String) × CacheEntry) :=
  match cache with
  | [] => [(k, e)]
  | (k', e') :: rest => if k' = k then (k, e) :: rest else (k', e') :: assocSet rest k e

/-- `_cache_lookup`: `none` when caching is disabled, the key is absent, or the
entry's age in hours exceeds the TTL; `(now - ts) / 3600 > TTL` is the exact
real inequality `now - ts > TTL * 3600`. -/
def cacheLookup (cfg : Config) (st : FetchState) (params : Params) :
    Option (List FlightGroup × List FlightGroup) :=
  if cfg.NO_CACHE then none
  else
    match assocGet st.cache (cacheKeyCanon params) with
    | none => none
    | some entry =>
      if st.now - entry.timestamp > cfg.SERPAPI_CACHE_TTL_HOURS * 3600 then none
      else some entry.response

/-- `_cache_store` followed by `_cache_save`'s pruning: write a fresh entry,
then keep only the entries strictly younger than the TTL. -/
def cacheStore (cfg : Config) (st : FetchState) (params : Params)
    (response : List FlightGroup × List FlightGroup) :
    List (List (String × String) × CacheEntry) :=
  if cfg.NO_CACHE then st.cache
  else
    let cache := assocSet st.cache (cacheKeyCanon params)
      { timestamp := st.now, response := response }
    cache.filter fun kv => st.now - kv.2.timestamp < cfg.SERPAPI_CACHE_TTL_HOURS * 3600

/-- `_increment_usage`: bump and persist the monthly counter. -/
def incrementUsage (st : FetchState) : FetchState :=
  { st with usageCount := st.usageCount + 1 }

/-- A raw upstream response: an `error` field (empty string standing for the
absent/falsy error of a success) and the two itinerary-group arrays. -/
structure UpstreamResp where
  error : String := ""
  best_flights : List FlightGroup := []
  other_flights : List FlightGroup := []

/-- One `GoogleSearch(params).get_dict()` call against the upstream oracle
`u`, recorded in the ghost call log. -/
def callUpstream (u : Params → UpstreamResp) (params : Params) (st : FetchState) :
    UpstreamResp × FetchState :=
  (u params, { st with calls := st.calls ++ [params] })

/-- `_METRO_EXPANSION`. -/
def metroExpansion : List (String × String) :=
  [("WAS", "DCA,IAD,BWI"), ("NYC", "JFK,EWR,LGA"), ("CHI", "ORD,MDW"),
   ("YTO", "YYZ,YTZ"), ("BJS", "PEK,PKX"), ("SEA", "SEA")]

/-- `_expand_airports`: expand a known metro code, pass anything else through. -/
def expandAirports (code : String) : String :=
  (getParam metroExpansion (strUpper code)).getD code

/-- `_departure_only`: keep only the first two comma-separated values. -/
def departureOnly (time_str : String) : String :=
  let parts := time_str.splitOn ","
  if parts.length ≥ 2 then (parts.getD 0 "").trim ++ "," ++ (parts.getD 1 "").trim
  else time_str

/-- `_build_params`: the SerpAPI query dict for one combination, in the
source's insertion order with its conditional additions. -/
def buildParams (cfg : Config) (combo : SearchCombination) : Params :=
  let params : Params :=
    [("engine", "google_flights"),
     ("api_key", cfg.SERPAPI_KEY),
     ("departure_id", expandAirports combo.departure_id),
     ("arrival_id", expandAirports combo.arrival_id),
     ("outbound_date", combo.outbound_date),
     ("type", toString combo.type),
     ("travel_class", toString combo.travel_class),
     ("adults", toString combo.adults),
     ("children", toString combo.children),
     ("stops", toString combo.stops),
     ("sort_by", toString combo.sort_by),
     ("bags", toString combo.bags),
     ("currency", "USD"),
     ("hl", "en"),
     ("gl", "us"),
     ("deep_search", "true")]
  let params :=
    if (combo.return_date.getD "") ≠ "" then
      setParam params "return_date" (combo.return_date.getD "")
    else params
  let params :=
    if (combo.include_airlines.getD "") ≠ "" then
      setParam params "include_airlines" (combo.include_airlines.getD "")
    else if (combo.exclude_airlines.getD "") ≠ "" then
      setParam params "exclude_airlines" (combo.exclude_airlines.getD "")
    else params
  let params :=
    match combo.max_price with
    | some mp => setParam params "max_price" (toString mp)
    | none => params
  let params :=
    match combo.max_duration with
    | some md => setParam params "max_duration" (toString md)
    | none => params
  let params :=
    if (combo.outbound_times.getD "") ≠ "" then
      setParam params "outbound_times" (departureOnly (combo.outbound_times.getD ""))
    else params
  let params :=
    if (combo.return_times.getD "") ≠ "" then
      setParam params "return_times" (departureOnly (combo.return_times.getD ""))
    else params
  params

/-- `_lookup_return_group`: cache-checked, quota-checked secondary lookup of
the return leg for a `departure_token`; `none` embeds the `{}` returns (the
exception handler of the source catches network errors, which the total
oracle does not produce). -/
def lookupReturnGroup (cfg : Config) (u : Params → UpstreamResp) (base_params : Params)
    (departure_token : String) (st : FetchState) : Option FlightGroup × FetchState :=
  let params := setParam base_params "departure_token" departure_token
  match cacheLookup cfg st params with
  | some cached => ((cached.1 ++ cached.2).head?, st)
  | none =>
    if st.usageCount ≥ cfg.SERPAPI_MONTHLY_LIMIT then (none, st)
    else
      let res := callUpstream u params st
      let results := res.1
      let st1 := res.2
      if results.error ≠ "" then (none, st1)
      else
        match results.best_flights ++ results.other_flights with
        | [] => (none, st1)
        | g :: _ =>
          let st2 := incrementUsage st1
          let st3 := { st2 with
            cache := cacheStore cfg st2 params (results.best_flights, results.other_flights) }
          (some g, st3)

/-- `_fetch_one_way_groups`: cache-checked, quota-checked one-way search;
increments usage and stores only when the successful response has a
non-empty group list. -/
def fetchOneWayGroups (cfg : Config) (u : Params → UpstreamResp) (params : Params)
    (st : FetchState) : List FlightGroup × FetchState :=
  match cacheLookup cfg st params with
  | some cached => (cached.1 ++ cached.2, st)
  | none =>
    if st.usageCount ≥ cfg.SERPAPI_MONTHLY_LIMIT then ([], st)
    else
      let res := callUpstream u params st
      let results := res.1
      let st1 := res.2
      if results.error ≠ "" then ([], st1)
      else
        let groups := results.best_flights ++ results.other_flights
        if groups = [] then (groups, st1)
        else
          let st2 := incrementUsage st1
          let st3 := { st2 with
            cache := cacheStore cfg st2 params (results.best_flights, results.other_flights) }
          (groups, st3)

/-- The per-group body of `_enrich_return_legs`: skip a group without a
truthy `departure_token` or with an empty secondary result, otherwise attach
the return-leg fields in place. -/
def enrichOne (cfg : Config) (u : Params → UpstreamResp) (params : Params)
    (g : FlightGroup) (st : FetchState) : FlightGroup × FetchState :=
  if (g.departure_token.getD "") = "" then (g, st)
  else
    let res := lookupReturnGroup cfg u params (g.departure_token.getD "") st
    match res.1 with
    | none => (g, res.2)
    | some rg =>
      ({ g with
          return_flights := rg.flights
          return_layovers := rg.layovers
          return_total_duration := rg.total_duration
          return_airline_logo := rg.airline_logo
          return_extensions_att := rg.extensions }, res.2)

/-- Enrich the first `n` groups of a list in order, threading the state. -/
def enrichFirstN (cfg : Config) (u : Params → UpstreamResp) (params : Params) :
    Nat → List FlightGroup → FetchState → List FlightGroup × FetchState
  | 0, gs, st => (gs, st)
  | _ + 1, [], st => ([], st)
  | n + 1, g :: gs, st =>
    let r1 := enrichOne cfg u params g st
    let r2 := enrichFirstN cfg u params n gs r1.2
    (r1.1 :: r2.1, r2.2)

/-- `_enrich_return_legs`: enrich the first 5 groups of
`best_flights ++ other_flights` in place. -/
def enrichReturnLegs (cfg : Config) (u : Params → UpstreamResp) (params : Params)
    (best other : List FlightGroup) (st : FetchState) :
    (List FlightGroup × List FlightGroup) × FetchState :=
  let all := best ++ other
  let r := enrichFirstN cfg u params 5 all st
  ((r.1.take best.length, r.1.drop best.length), r.2)

/-- Truthiness of `raw.get("__fatal_error__")`. -/
def isFatal : RawResponse → Bool
  | .fatal m => m ≠ ""
  | _ => false

/-- `fetch_combination`: quota check, cache lookup, upstream call with
fatal/transient error classification, usage increment and cache store on
success, and round-trip enrichment. -/
def fetchCombination (cfg : Config) (u : Params → UpstreamResp)
    (combo : SearchCombination) (st : FetchState) : RawResponse × FetchState :=
  if st.usageCount ≥ cfg.SERPAPI_MONTHLY_LIMIT then (.empty, st)
  else
    let params := buildParams cfg combo
    match cacheLookup cfg st params with
    | some cached =>
      if combo.type = 1 ∧ (combo.return_date.getD "") ≠ "" then
        let r := enrichReturnLegs cfg u params cached.1 cached.2 st
        (.flights r.1.1 r.1.2, r.2)
      else (.flights cached.1 cached.2, st)
    | none =>
      let res := callUpstream u params st
      let results := res.1
      let st1 := res.2
      if results.error ≠ "" then
        if strContainsSub (strLower results.error) "invalid api key" then
          (.fatal results.error, st1)
        else (.empty, st1)
      else
        let st2 := incrementUsage st1
        let st3 := { st2 with
          cache := cacheStore cfg st2 params (results.best_flights, results.other_flights) }
        if combo.type = 1 ∧ (combo.return_date.getD "") ≠ "" then
          let r := enrichReturnLegs cfg u params results.best_flights results.other_flights st3
          (.flights r.1.1 r.1.2, r.2)
        else (.flights results.best_flights results.other_flights, st3)

/-- The `outbound_times` narrowing applied to one-way outbound parameters:
keep only the departure window of a 4-part window. -/
def stripTimesOutbound (ps : Params) : Params :=
  if ((getParam ps "outbound_times").getD "") ≠ "" then
    let parts := ((getParam ps "outbound_times").getD "").splitOn ","
    if parts.length = 4 then
      setParam ps "outbound_times" (parts.getD 0 "" ++ "," ++ parts.getD 1 "")
    else ps
  else ps

/-- The outbound one-way parameter block of `fetch_all` (the same statements
appear verbatim in the main loop and in the dual-fetch section). -/
def outboundOneWayParams (base : Params) : Params :=
  let p := setParam base "type" "2"
  let p := popParam p "return_date"
  let p := popParam p "return_times"
  stripTimesOutbound p

/-- The return one-way parameter block of `fetch_all` (likewise shared by the
main loop and the dual-fetch section). -/
def returnOneWayParams (combo : SearchCombination) (base : Params) : Params :=
  let p := setParam base "type" "2"
  let p := setParam p "departure_id" (expandAirports combo.arrival_id)
  let p := setParam p "arrival_id" (expandAirports combo.departure_id)
  let p := setParam p "outbound_date" (combo.return_date.getD "")
  let p := popParam p "return_date"
  let p := popParam p "outbound_times"
  if (combo.return_times.getD "") ≠ "" then
    let rt_parts := (combo.return_times.getD "").splitOn ","
    setParam p "outbound_times"
      (if rt_parts.length ≥ 2 then rt_parts.getD 0 "" ++ "," ++ rt_parts.getD 1 ""
       else combo.return_times.getD "")
  else p

/-- The main loop of `fetch_all`: per combination, fetch it; on a fatal
sentinel append it and break; otherwise append it and, for round trips, also
fetch the independent one-way pair (airline filters stripped) and append the
unit.  The fixed inter-call delay has no observable effect in the model. -/
def fetchLoop (cfg : Config) (u : Params → UpstreamResp) :
    List SearchCombination → FetchState → List RawResponse × FetchState
  | [], st => ([], st)
  | combo :: rest, st =>
    let rc := fetchCombination cfg u combo st
    let raw := rc.1
    let st0 := rc.2
    if isFatal raw then ([raw], st0)
    else if combo.type = 1 ∧ (combo.return_date.getD "") ≠ "" then
      let base := popParam (popParam (buildParams cfg combo) "include_airlines") "exclude_airlines"
      let ro := fetchOneWayGroups cfg u (outboundOneWayParams base) st0
      let rr := fetchOneWayGroups cfg u (returnOneWayParams combo base) ro.2
      let unit := RawResponse.independent
        ⟨combo.departure_id, combo.arrival_id, combo.outbound_date, combo.return_date⟩ ro.1 rr.1
      let tail := fetchLoop cfg u rest rr.2
      (raw :: unit :: tail.1, tail.2)
    else
      let tail := fetchLoop cfg u rest st0
      (raw :: tail.1, tail.2)

/-- `route_key` of the dual-fetch section. -/
def routeKey (c : SearchCombination) : String :=
  c.departure_id ++ "|" ++ c.arrival_id ++ "|" ++ c.outbound_date ++ "|" ++ optStr c.return_date

/-- `_NAME_TO_IATA`. -/
def nameToIata : List (String × String) :=
  [("spirit", "NK"), ("frontier", "F9"), ("southwest", "WN"), ("allegiant", "G4"),
   ("sun country", "SY"), ("breeze", "MX"), ("avelo", "XP"), ("jetblue", "B6"),
   ("alaska", "AS"), ("hawaiian", "HA"), ("united", "UA"), ("american", "AA"),
   ("delta", "DL"), ("british airways", "BA"), ("lufthansa", "LH")]

/-- One targeted dual-fetch for an airline filter: force the airline into
`include_airlines` and run the outbound/return one-way pair. -/
def dualFetchOne (cfg : Config) (u : Params → UpstreamResp) (combo : SearchCombination)
    (af : PostFilter) (st : FetchState) : RawResponse × FetchState :=
  let iata := (getParam nameToIata (strLower af.value)).getD (String.mk ((strUpper af.value).toList.take 2))
  let base := buildParams cfg combo
  let base := setParam base "include_airlines" iata
  let base := popParam base "exclude_airlines"
  let ro := fetchOneWayGroups cfg u (outboundOneWayParams base) st
  let rr := fetchOneWayGroups cfg u (returnOneWayParams combo base) ro.2
  (RawResponse.independent
    ⟨combo.departure_id, combo.arrival_id, combo.outbound_date, combo.return_date⟩ ro.1 rr.1,
   rr.2)

/-- The inner `for af in airline_filters` loop of the dual-fetch section. -/
def dualFetchFilters (cfg : Config) (u : Params → UpstreamResp) (combo : SearchCombination) :
    List PostFilter → FetchState → List RawResponse × FetchState
  | [], st => ([], st)
  | af :: rest, st =>
    let r1 := dualFetchOne cfg u combo af st
    let r2 := dualFetchFilters cfg u combo rest r1.2
    (r1.1 :: r2.1, r2.2)

/-- The outer dual-fetch loop over combinations with its `seen_routes` set:
only the first round-trip combination of each route/date key is processed. -/
def dualFetchLoop (cfg : Config) (u : Params → UpstreamResp)
    (airline_filters : List PostFilter) :
    List SearchCombination → List String → FetchState → List RawResponse × FetchState
  | [], _, st => ([], st)
  | combo :: rest, seen, st =>
    if routeKey combo ∈ seen ∨ combo.type ≠ 1 ∨ (combo.return_date.getD "") = "" then
      dualFetchLoop cfg u airline_filters rest seen st
    else
      let r1 := dualFetchFilters cfg u combo airline_filters st
      let r2 := dualFetchLoop cfg u airline_filters rest (routeKey combo :: seen) r1.2
      (r1.1 ++ r2.1, r2.2)

/-- `fetch_all`: the main loop followed, whenever an
`at_least_one_leg_airline` filter is present and the combination list is
non-empty, by the preference dual-fetch (which runs even when the main loop
broke on a fatal error). -/
def fetchAll (cfg : Config) (u : Params → UpstreamResp)
    (combinations : List SearchCombination) (post_filters : List PostFilter)
    (st : FetchState) : List RawResponse × FetchState :=
  let lp := fetchLoop cfg u combinations st
  let airline_filters := post_filters.filter fun f =>
    f.filter_type == "at_least_one_leg_airline"
  if airline_filters ≠ [] ∧ combinations ≠ [] then
    let df := dualFetchLoop cfg u airline_filters combinations [] lp.2
    (lp.1 ++ df.1, df.2)
  else (lp.1, lp.2)

/- ────────────────────────────────────────────────────────────────────────────
Projections and concrete instances used in the statements below.
──────────────────────────────────────────────────────────────────────────── -/

/-- The `outbound_groups` array of a raw response (`.get("outbound_groups", [])`). -/
def respOutboundGroups : RawResponse → List FlightGroup
  | .independent _ o _ => o
  | _ => []

/-- The `return_groups` array of a raw response (`.get("return_groups", [])`). -/
def respReturnGroups : RawResponse → List FlightGroup
  | .independent _ _ r => r
  | _ => []

/-- Two parameter dicts with the same non-credential fields in a different
order and different `api_key` values. -/
def paramsW1 : Params := [("b", "2"), ("api_key", "k1"), ("a", "1")]

/-- See `paramsW1`. -/
def paramsW2 : Params := [("a", "1"), ("api_key", "k2"), ("b", "2")]

/-- A one-segment flight group used as concrete input. -/
def grpW : FlightGroup :=
  { flights := [{ airline := "Spirit", flight_number := "NK 100",
                  departure_id := "AUS", departure_time := some "2026-03-10 06:30",
                  arrival_id := "LAX", arrival_time := some "2026-03-10 08:12" }],
    price := some 100 }

/-- An independent-pair unit with 5 outbound and 4 return groups. -/
def respW : RawResponse :=
  .independent ⟨"AUS", "LAX", "2026-03-10", some "2026-03-20"⟩
    [grpW, grpW, grpW, grpW, grpW] [grpW, grpW, grpW, grpW]

/-- A result arriving exactly at the example deadline. -/
def rKeep : FlightResult :=
  { origin := "AUS", destination := "LAX", airline := "Frontier Airlines",
    flight_numbers := "F9 1", depart_time := "2026-03-30 05:00",
    arrive_time := "2026-03-30T08:00:00", stops := 0, layover_info := "",
    total_duration_mins := 180, price := 100, currency := "USD",
    travel_class := "Economy", airplane := "", legroom := "", extensions := "" }

/-- A result arriving one second after the example deadline. -/
def rDrop : FlightResult :=
  { rKeep with flight_numbers := "F9 2", arrive_time := "2026-03-30T08:00:01" }

/-- A result on a different airline, for the soft-preference witness. -/
def rOther : FlightResult :=
  { rKeep with flight_numbers := "AA 3", airline := "American" }

/-- The example `arrival_before` post-filter. -/
def pfArr : PostFilter := { filter_type := "arrival_before", value := "2026-03-30T08:00" }

/-- The example `at_least_one_leg_airline` post-filter. -/
def pfAirline : PostFilter := { filter_type := "at_least_one_leg_airline", value := "Frontier" }

/-- A configuration with a small monthly limit, cache enabled. -/
def cfgW : Config := { SERPAPI_KEY := "K", SERPAPI_MONTHLY_LIMIT := 5 }

/-- A configuration with the cache disabled. -/
def cfgNC : Config := { SERPAPI_KEY := "K", SERPAPI_MONTHLY_LIMIT := 5, NO_CACHE := true }

/-- An upstream oracle that always succeeds with no flights. -/
def uEmpty : Params → UpstreamResp := fun _ => { error := "" }

/-- An upstream oracle that always reports an invalid credential. -/
def uFatal : Params → UpstreamResp := fun _ => { error := "Invalid API key" }

/-- A one-way combination. -/
def comboOW : SearchCombination :=
  { departure_id := "AUS", arrival_id := "LAX", outbound_date := "2026-03-10", type := 2 }

/-- A round-trip combination. -/
def comboRT : SearchCombination :=
  { departure_id := "AUS", arrival_id := "LAX", outbound_date := "2026-03-10",
    return_date := some "2026-03-20" }

/-- A state already at the monthly limit of `cfgW`, with an empty cache. -/
def stAtLimit : FetchState := { usageCount := 5, cache := [], now := 0 }

/-- A fresh state below the limit with an empty cache. -/
def stFresh : FetchState := { usageCount := 0, cache := [], now := 0 }

/-- A state holding a fresh cache entry for `comboOW`'s canonical parameters. -/
def stHit : FetchState :=
  { usageCount := 0,
    cache := [(cacheKeyCanon (buildParams cfgW comboOW),
               { timestamp := 0, response := ([grpW], []) })],
    now := 0 }

/- ────────────────────────────────────────────────────────────────────────────
Theorems.
──────────────────────────────────────────────────────────────────────────── -/

/-- A Bool that is not true is false. -/
theorem bool_false_of_not_true {b : Bool} (h : ¬b = true) : b = false := by
  cases b
  · rfl
  · exact absurd rfl h

/-- `listLtb` is irreflexive. -/
theorem listLtb_irrefl : ∀ x : List Char, listLtb x x = false := by
  intro x
  induction x with
  | nil => rfl
  | cons a as ih => simp [listLtb, Nat.lt_irrefl, ih]

/-- `listLtb` is asymmetric. -/
theorem listLtb_asymm : ∀ x y : List Char, listLtb x y = true → listLtb y x = true → False := by
  intro x
  induction x with
  | nil =>
    intro y h1 h2
    cases y with
    | nil => simp [listLtb] at h1
    | cons b bs => simp [listLtb] at h2
  | cons a as ih =>
    intro y h1 h2
    cases y with
    | nil => simp [listLtb] at h1
    | cons b bs =>
      by_cases hab : a.toNat < b.toNat
      · have hba : ¬b.toNat < a.toNat := by omega
        simp [listLtb, hab, hba] at h2
      · by_cases hba : b.toNat < a.toNat
        · simp [listLtb, hab, hba] at h1
        · simp [listLtb, hab, hba] at h1 h2
          exact ih bs h1 h2

/-- Mutually non-less character lists are equal. -/
theorem listLtb_trichot : ∀ x y : List Char,
    listLtb x y = false → listLtb y x = false → x = y := by
  intro x
  induction x with
  | nil =>
    intro y h1 _
    cases y with
    | nil => rfl
    | cons b bs => simp [listLtb] at h1
  | cons a as ih =>
    intro y h1 h2
    cases y with
    | nil => simp [listLtb] at h2
    | cons b bs =>
      by_cases hab : a.toNat < b.toNat
      · simp [listLtb, hab] at h1
      · by_cases hba : b.toNat < a.toNat
        · simp [listLtb, hba] at h2
        · have hn : a.toNat = b.toNat := by omega
          have hchar : a = b := by
            have hc := congrArg Char.ofNat hn
            rwa [Char.ofNat_toNat, Char.ofNat_toNat] at hc
          simp [listLtb, hab, hba] at h1 h2
          rw [hchar, ih bs h1 h2]

/-- `listLtb` is transitive. -/
theorem listLtb_trans : ∀ x y z : List Char,
    listLtb x y = true → listLtb y z = true → listLtb x z = true := by
  intro x
  induction x with
  | nil =>
    intro y z h1 h2
    cases y with
    | nil => simp [listLtb] at h1
    | cons b bs =>
      cases z with
      | nil => simp [listLtb] at h2
      | cons c cs => simp [listLtb]
  | cons a as ih =>
    intro y z h1 h2
    cases y with
    | nil => simp [listLtb] at h1
    | cons b bs =>
      cases z with
      | nil => simp [listLtb] at h2
      | cons c cs =>
        by_cases hab : a.toNat < b.toNat
        · by_cases hbc : b.toNat < c.toNat
          · have : a.toNat < c.toNat := by omega
            simp [listLtb, this]
          · by_cases hcb : c.toNat < b.toNat
            · simp [listLtb, hbc, hcb] at h2
            · have : a.toNat < c.toNat := by omega
              simp [listLtb, this]
        · by_cases hba : b.toNat < a.toNat
          · simp [listLtb, hab, hba] at h1
          · by_cases hbc : b.toNat < c.toNat
            · have : a.toNat < c.toNat := by omega
              simp [listLtb, this]
            · by_cases hcb : c.toNat < b.toNat
              · simp [listLtb, hbc, hcb] at h2
              · have hac1 : ¬a.toNat < c.toNat := by omega
                have hac2 : ¬c.toNat < a.toNat := by omega
                simp [listLtb, hab, hba] at h1
                simp [listLtb, hbc, hcb] at h2
                simp [listLtb, hac1, hac2, ih bs cs h1 h2]

/-- `strLtb` is transitive. -/
theorem strLtb_trans {a b c : String} (h1 : strLtb a b = true) (h2 : strLtb b c = true) :
    strLtb a c = true :=
  listLtb_trans _ _ _ h1 h2

/-- `strLtb` is irreflexive. -/
theorem strLtb_irrefl (s : String) : strLtb s s = false := listLtb_irrefl _

/-- Mutually non-less strings are equal. -/
theorem str_eq_of_not_lt {s t : String} (h1 : strLtb s t = false) (h2 : strLtb t s = false) :
    s = t :=
  String.ext (listLtb_trichot _ _ h1 h2)

/-- `pairLe` is total. -/
theorem pairLe_total : ∀ a b : String × String, pairLe a b ∨ pairLe b a := by
  intro a b
  by_cases h1 : strLtb a.1 b.1 = true
  · exact Or.inl (Or.inl h1)
  · by_cases h2 : strLtb b.1 a.1 = true
    · exact Or.inr (Or.inl h2)
    · have he := str_eq_of_not_lt (bool_false_of_not_true h1) (bool_false_of_not_true h2)
      by_cases h3 : strLtb a.2 b.2 = true
      · exact Or.inl (Or.inr ⟨he, Or.inl h3⟩)
      · by_cases h4 : strLtb b.2 a.2 = true
        · exact Or.inr (Or.inr ⟨he.symm, Or.inl h4⟩)
        · exact Or.inl (Or.inr ⟨he, Or.inr
            (str_eq_of_not_lt (bool_false_of_not_true h3) (bool_false_of_not_true h4))⟩)

/-- `pairLe` is transitive. -/
theorem pairLe_trans : ∀ a b c : String × String, pairLe a b → pairLe b c → pairLe a c := by
  intro a b c hab hbc
  rcases hab with h1 | ⟨e1, h1⟩
  · rcases hbc with h2 | ⟨e2, _⟩
    · exact Or.inl (strLtb_trans h1 h2)
    · exact Or.inl (by rw [← e2]; exact h1)
  · rcases hbc with h2 | ⟨e2, h2⟩
    · exact Or.inl (by rw [e1]; exact h2)
    · refine Or.inr ⟨e1.trans e2, ?_⟩
      rcases h1 with h1 | h1
      · rcases h2 with h2 | h2
        · exact Or.inl (strLtb_trans h1 h2)
        · exact Or.inl (by rw [← h2]; exact h1)
      · rcases h2 with h2 | h2
        · exact Or.inl (by rw [h1]; exact h2)
        · exact Or.inr (h1.trans h2)

/-- `pairLe` is antisymmetric. -/
theorem pairLe_antisymm : ∀ a b : String × String, pairLe a b → pairLe b a → a = b := by
  intro a b hab hba
  rcases hab with h1 | ⟨e1, h1⟩
  · rcases hba with h2 | ⟨e2, _⟩
    · exact (listLtb_asymm _ _ h1 h2).elim
    · rw [e2] at h1
      exact absurd h1 (by simp [strLtb_irrefl])
  · rcases hba with h2 | ⟨_, h2⟩
    · rw [e1] at h2
      exact absurd h2 (by simp [strLtb_irrefl])
    · rcases h1 with h1 | h1
      · rcases h2 with h2 | h2
        · exact (listLtb_asymm _ _ h1 h2).elim
        · rw [h2] at h1
          exact absurd h1 (by simp [strLtb_irrefl])
      · rcases h2 with h2 | h2
        · rw [h1] at h2
          exact absurd h2 (by simp [strLtb_irrefl])
        · exact Prod.ext e1 h1

/-- C4: for parameter dicts containing the same field-value pairs up to
reordering, possibly differing in the value of the `api_key` field, the cache
key function computes the same canonical key (and hence the same SHA-256
hash). -/
theorem cacheKey_canonical (ps qs : Params)
    (h : (ps.filter fun p => p.1 ≠ "api_key").Perm (qs.filter fun p => p.1 ≠ "api_key")) :
    cacheKeyCanon ps = cacheKeyCanon qs := by
  haveI : IsTotal (String × String) pairLe := ⟨pairLe_total⟩
  haveI : IsTrans (String × String) pairLe := ⟨pairLe_trans⟩
  haveI : IsAntisymm (String × String) pairLe := ⟨pairLe_antisymm⟩
  unfold cacheKeyCanon sortPairs
  apply List.eq_of_perm_of_sorted (r := pairLe)
  · exact (((List.perm_insertionSort pairLe ps).filter _).trans h).trans
      ((List.perm_insertionSort pairLe qs).filter _).symm
  · exact (List.sorted_insertionSort pairLe ps).filter _
  · exact (List.sorted_insertionSort pairLe qs).filter _

/-- Witness for C4: two concrete dicts, reordered and with different
credential values, share the cache key. -/
theorem cacheKey_canonical_witness : cacheKeyCanon paramsW1 = cacheKeyCanon paramsW2 :=
  cacheKey_canonical paramsW1 paramsW2 (by decide)

/-- Each element of a flat-mapped list with uniformly bounded blocks is
bounded by block size times list length. -/
theorem length_flatMap_le_of_bound {α β : Type} (f : α → List β) (k : Nat)
    (h : ∀ a, (f a).length ≤ k) : ∀ l : List α, (l.flatMap f).length ≤ k * l.length := by
  intro l
  induction l with
  | nil => simp
  | cons a t ih =>
    simp only [List.flatMap_cons, List.length_append, List.length_cons]
    calc (f a).length + (t.flatMap f).length ≤ k + k * t.length := Nat.add_le_add (h a) ih
      _ = k * (t.length + 1) := by ring

/-- Membership characterization of `buildIndependentPairs`: every produced
result is `mkPairResult` of legs extracted from the first 3 outbound and
first 3 return groups. -/
theorem mem_buildIndependentPairs {response : RawResponse} {rres : FlightResult}
    (hmem : rres ∈ buildIndependentPairs response) :
    ∃ ol rl og rg, og ∈ (respOutboundGroups response).take 3 ∧
      rg ∈ (respReturnGroups response).take 3 ∧
      extractGroupLeg og = some ol ∧ extractGroupLeg rg = some rl ∧
      rres = mkPairResult ol rl := by
  cases response with
  | independent c o r =>
    by_cases h : o = [] ∨ r = []
    · rw [buildIndependentPairs, if_pos h] at hmem
      simp at hmem
    · rw [buildIndependentPairs, if_neg h] at hmem
      rw [List.mem_flatMap] at hmem
      obtain ⟨og, hog, hin⟩ := hmem
      cases hex : extractGroupLeg og with
      | none => rw [hex] at hin; simp at hin
      | some ol =>
        rw [hex] at hin
        simp only at hin
        rw [List.mem_filterMap] at hin
        obtain ⟨rg, hrg, hmap⟩ := hin
        cases hex2 : extractGroupLeg rg with
        | none => rw [hex2] at hmap; simp at hmap
        | some rl =>
          rw [hex2] at hmap
          simp only [Option.map_some'] at hmap
          exact ⟨ol, rl, og, rg, hog, hrg, hex, hex2, (Option.some.inj hmap).symm⟩
  | empty => simp [buildIndependentPairs] at hmem
  | fatal m => simp [buildIndependentPairs] at hmem
  | flights b o => simp [buildIndependentPairs] at hmem

/-- C8: an independent-pair unit yields at most 9 combined results, drawn as
pairs from the first 3 outbound and first 3 return groups with extractable
(non-empty-segment) legs, each tagged `independent_one_way` with total price
the sum of the two legs' prices (a missing leg price read as 0). -/
theorem independentPairs_capped (response : RawResponse) :
    (buildIndependentPairs response).length ≤ 9 ∧
    ∀ rres ∈ buildIndependentPairs response, ∃ ol rl : GroupLeg,
      rres = mkPairResult ol rl ∧
      rres.itinerary_type = "independent_one_way" ∧
      rres.total_price = some (ol.price + rl.price) ∧
      (∃ og ∈ (respOutboundGroups response).take 3, extractGroupLeg og = some ol) ∧
      (∃ rg ∈ (respReturnGroups response).take 3, extractGroupLeg rg = some rl) := by
  constructor
  · cases response with
    | independent c o r =>
      by_cases h : o = [] ∨ r = []
      · rw [buildIndependentPairs, if_pos h]
        simp
      · rw [buildIndependentPairs, if_neg h]
        have hinner : ∀ og : FlightGroup,
            ((match extractGroupLeg og with
              | none => []
              | some out_leg => (r.take 3).filterMap fun ret_g =>
                  (extractGroupLeg ret_g).map fun ret_leg =>
                    mkPairResult out_leg ret_leg) : List FlightResult).length ≤ 3 := by
          intro og
          cases hex : extractGroupLeg og with
          | none => simp
          | some ol =>
            simp only
            exact le_trans (List.length_filterMap_le _ _) (List.length_take_le _ _)
        calc ((o.take 3).flatMap _).length
            ≤ 3 * (o.take 3).length := length_flatMap_le_of_bound _ 3 hinner _
          _ ≤ 3 * 3 := Nat.mul_le_mul_left 3 (List.length_take_le _ _)
          _ = 9 := rfl
    | empty => simp [buildIndependentPairs]
    | fatal m => simp [buildIndependentPairs]
    | flights b o => simp [buildIndependentPairs]
  · intro rres hmem
    obtain ⟨ol, rl, og, rg, hog, hrg, hex, hex2, hre⟩ := mem_buildIndependentPairs hmem
    exact ⟨ol, rl, hre, by rw [hre]; rfl, by rw [hre]; rfl,
      ⟨og, hog, hex⟩, ⟨rg, hrg, hex2⟩⟩

/-- Witness for C8: 5 outbound and 4 return groups yield at most 9 (and here
exactly 9) combined results, never 20. -/
theorem independentPairs_capped_witness :
    (buildIndependentPairs respW).length ≤ 9 ∧ (buildIndependentPairs respW).length = 9 :=
  ⟨(independentPairs_capped respW).1, by decide⟩

/-- Every `FlightResult` built by `_process_flight_group` is a bundled round
trip. -/
theorem processFlightGroup_round_trip (g : FlightGroup) (res : FlightResult)
    (h : processFlightGroup g = some res) : res.itinerary_type = "round_trip" := by
  unfold processFlightGroup at h
  cases hg : g.flights with
  | nil => rw [hg] at h; exact Option.noConfusion h
  | cons a t =>
    rw [hg] at h
    obtain rfl := Option.some.inj h
    rfl

/-- A group with segments always normalizes. -/
theorem processFlightGroup_isSome {g : FlightGroup} (h : g.flights ≠ []) :
    ∃ res, processFlightGroup g = some res := by
  cases hg : g.flights with
  | nil => exact absurd hg h
  | cons a t => exact ⟨_, by unfold processFlightGroup; rw [hg]⟩

/-- Deduplicated output is a subset of the input stream. -/
theorem dedupInto_mem_sub {l : List FlightResult} :
    ∀ {seen r}, r ∈ (dedupInto seen l).1 → r ∈ l := by
  induction l with
  | nil => intro seen r h; simp [dedupInto] at h
  | cons a t ih =>
    intro seen r h
    by_cases hk : dedupKey a ∈ seen
    · rw [dedupInto, if_pos hk] at h
      exact List.mem_cons_of_mem a (ih h)
    · rw [dedupInto, if_neg hk] at h
      rcases List.mem_cons.mp h with rfl | h
      · exact List.mem_cons_self _ _
      · exact List.mem_cons_of_mem a (ih h)

/-- A kept result's key was not among the already-seen keys. -/
theorem dedupInto_key_not_seen {l : List FlightResult} :
    ∀ {seen r}, r ∈ (dedupInto seen l).1 → dedupKey r ∉ seen := by
  induction l with
  | nil => intro seen r h; simp [dedupInto] at h
  | cons a t ih =>
    intro seen r h
    by_cases hk : dedupKey a ∈ seen
    · rw [dedupInto, if_pos hk] at h
      exact ih h
    · rw [dedupInto, if_neg hk] at h
      rcases List.mem_cons.mp h with rfl | h
      · exact hk
      · intro hs
        exact ih h (List.mem_cons_of_mem _ hs)

/-- Kept results have pairwise distinct dedup keys. -/
theorem dedupInto_pairwise {l : List FlightResult} :
    ∀ {seen}, (dedupInto seen l).1.Pairwise fun a b => dedupKey a ≠ dedupKey b := by
  induction l with
  | nil => intro seen; simp [dedupInto]
  | cons a t ih =>
    intro seen
    by_cases hk : dedupKey a ∈ seen
    · rw [dedupInto, if_pos hk]; exact ih
    · rw [dedupInto, if_neg hk]
      rw [List.pairwise_cons]
      refine ⟨?_, ih⟩
      intro b hb he
      exact dedupInto_key_not_seen hb (by rw [← he]; exact List.mem_cons_self _ _)

/-- Each kept result is the earliest element of the input stream bearing its
dedup key. -/
theorem dedupInto_first_occ {l : List FlightResult} :
    ∀ {seen r}, r ∈ (dedupInto seen l).1 →
      ∃ l1 l2, l = l1 ++ r :: l2 ∧ ∀ x ∈ l1, dedupKey x ≠ dedupKey r := by
  induction l with
  | nil => intro seen r h; simp [dedupInto] at h
  | cons a t ih =>
    intro seen r h
    by_cases hk : dedupKey a ∈ seen
    · rw [dedupInto, if_pos hk] at h
      have hr : dedupKey r ∉ seen := dedupInto_key_not_seen h
      obtain ⟨l1, l2, heq, hcl⟩ := ih h
      refine ⟨a :: l1, l2, by rw [heq, List.cons_append], ?_⟩
      intro x hx
      rcases List.mem_cons.mp hx with rfl | hx
      · intro he; exact hr (he ▸ hk)
      · exact hcl x hx
    · rw [dedupInto, if_neg hk] at h
      rcases List.mem_cons.mp h with rfl | h
      · exact ⟨[], t, rfl, by simp⟩
      · have hr : dedupKey r ∉ dedupKey a :: seen := dedupInto_key_not_seen h
        obtain ⟨l1, l2, heq, hcl⟩ := ih h
        refine ⟨a :: l1, l2, by rw [heq, List.cons_append], ?_⟩
        intro x hx
        rcases List.mem_cons.mp hx with rfl | hx
        · intro he; exact hr (by rw [← he]; exact List.mem_cons_self _ _)
        · exact hcl x hx

/-- Deduplicating a concatenation threads the seen set left to right. -/
theorem dedupInto_append (seen : List String) (l1 l2 : List FlightResult) :
    dedupInto seen (l1 ++ l2) =
      ((dedupInto seen l1).1 ++ (dedupInto (dedupInto seen l1).2 l2).1,
       (dedupInto (dedupInto seen l1).2 l2).2) := by
  induction l1 generalizing seen with
  | nil => simp [dedupInto]
  | cons a t ih =>
    by_cases hk : dedupKey a ∈ seen
    · simp only [List.cons_append, dedupInto, if_pos hk]
      exact ih seen
    · simp only [List.cons_append, dedupInto, if_neg hk, List.append_eq]
      rw [ih]

/-- The per-response `seen`-threading of `process_results` equals a single
deduplication pass over the flattened produced stream. -/
theorem processResultsAux_eq (rs : List RawResponse) :
    ∀ seen, processResultsAux seen rs = (dedupInto seen (rs.flatMap respResults)).1 := by
  induction rs with
  | nil => intro seen; simp [processResultsAux, dedupInto]
  | cons resp rest ih =>
    intro seen
    rw [processResultsAux, List.flatMap_cons, dedupInto_append, ih]

/-- Distinct dedup-key strings force distinct key tuples. -/
theorem keyTuple_ne_of_dedupKey_ne {a b : FlightResult} (h : dedupKey a ≠ dedupKey b) :
    keyTuple a ≠ keyTuple b := by
  intro he
  apply h
  have h1 : a.itinerary_type = b.itinerary_type := congrArg (fun t => t.1) he
  have h2 : a.flight_numbers = b.flight_numbers := congrArg (fun t => t.2.1) he
  have h3 : a.depart_time = b.depart_time := congrArg (fun t => t.2.2.1) he
  have h4 : a.return_flight_numbers = b.return_flight_numbers :=
    congrArg (fun t => t.2.2.2.1) he
  have h5 : a.return_depart_time = b.return_depart_time := congrArg (fun t => t.2.2.2.2) he
  rw [dedupKey, dedupKey, h1, h2, h3, h4, h5]

/-- C10: the normalizer gives every plain flight group — including one-way
search results — itinerary type `round_trip`, so `process_results` output only
carries the two values `round_trip` and `independent_one_way`, and the
itinerary type is the leading component of the dedup key. -/
theorem itinerary_type_values (rs : List RawResponse) :
    (∀ g res, processFlightGroup g = some res → res.itinerary_type = "round_trip") ∧
    (∀ res ∈ processResults rs,
      res.itinerary_type = "round_trip" ∨ res.itinerary_type = "independent_one_way") ∧
    (∀ res : FlightResult, dedupKey res =
      res.itinerary_type ++ "|" ++ res.flight_numbers ++ "|" ++ res.depart_time ++ "|" ++
        optStr res.return_flight_numbers ++ "|" ++ optStr res.return_depart_time) := by
  refine ⟨processFlightGroup_round_trip, ?_, fun res => rfl⟩
  intro res hres
  rw [processResults, processResultsAux_eq] at hres
  have hstream := dedupInto_mem_sub hres
  rw [List.mem_flatMap] at hstream
  obtain ⟨resp, _, hmem⟩ := hstream
  cases resp with
  | empty => simp [respResults] at hmem
  | fatal m => simp [respResults] at hmem
  | flights best other =>
    rw [respResults, List.mem_filterMap] at hmem
    obtain ⟨g, _, hg⟩ := hmem
    exact Or.inl (processFlightGroup_round_trip g res hg)
  | independent c o r =>
    rw [respResults] at hmem
    obtain ⟨ol, rl, _, _, _, _, _, _, hre⟩ := mem_buildIndependentPairs hmem
    exact Or.inr (by rw [hre]; rfl)

/-- Witness for C10: the dedup key of a concrete result decomposes with the
itinerary type as its first component. -/
theorem itinerary_type_values_witness :
    dedupKey rKeep = rKeep.itinerary_type ++ "|" ++ rKeep.flight_numbers ++ "|" ++
      rKeep.depart_time ++ "|" ++ optStr rKeep.return_flight_numbers ++ "|" ++
      optStr rKeep.return_depart_time :=
  (itinerary_type_values []).2.2 rKeep

/-- C3: `process_results` output has pairwise-distinct dedup-key tuples, each
kept result is the first element of the produced stream bearing its key, and
the same raw flight group fed twice yields exactly one result. -/
theorem processResults_dedup (rs : List RawResponse) :
    ((processResults rs).Pairwise fun a b => keyTuple a ≠ keyTuple b) ∧
    (∀ r ∈ processResults rs, ∃ l1 l2, rs.flatMap respResults = l1 ++ r :: l2 ∧
      ∀ x ∈ l1, keyTuple x ≠ keyTuple r) ∧
    (∀ g : FlightGroup, g.flights ≠ [] →
      (processResults [RawResponse.flights [g, g] []]).length = 1) := by
  refine ⟨?_, ?_, ?_⟩
  · rw [processResults, processResultsAux_eq]
    exact dedupInto_pairwise.imp fun h => keyTuple_ne_of_dedupKey_ne h
  · intro r hr
    rw [processResults, processResultsAux_eq] at hr
    obtain ⟨l1, l2, heq, hcl⟩ := dedupInto_first_occ hr
    exact ⟨l1, l2, heq, fun x hx => keyTuple_ne_of_dedupKey_ne (hcl x hx)⟩
  · intro g hg
    obtain ⟨res, hres⟩ := processFlightGroup_isSome hg
    rw [processResults]
    simp [processResultsAux, respResults, dedupInto, hres]

/-- Witness for C3: a concrete group fed twice yields exactly one result. -/
theorem processResults_dedup_witness :
    (processResults [RawResponse.flights [grpW, grpW] []]).length = 1 :=
  (processResults_dedup []).2.2 grpW (by decide)

/-- The outbound `keep` update, started from `True`, is the outbound leg
verdict. -/
theorem arrivalKeepOut_eq (leg : String) (d : DateTimeV) (r : FlightResult) :
    arrivalKeepOut leg d r true =
      (if (leg = "outbound" ∨ leg = "any") ∧ r.arrive_time ≠ "" then
        legArrOK d (parseISODT r.arrive_time)
      else true) := by
  unfold arrivalKeepOut legArrOK
  by_cases hC : (leg = "outbound" ∨ leg = "any") ∧ r.arrive_time ≠ ""
  · rw [if_pos hC, if_pos hC]
    cases parseISODT r.arrive_time with
    | none => rfl
    | some a => cases hb : dtLt d a <;> simp [hb]
  · rw [if_neg hC, if_neg hC]

/-- The return `keep` update conjoins the incoming verdict with the return leg
verdict (the `and keep` guard only short-circuits an already-false verdict). -/
theorem arrivalKeepRet_eq (leg : String) (d : DateTimeV) (r : FlightResult) (keep : Bool) :
    arrivalKeepRet leg d r keep =
      (keep &&
        (if (leg = "return" ∨ leg = "any") ∧ (r.return_arrive_time.getD "") ≠ "" then
          legArrOK d (parseISODT (r.return_arrive_time.getD ""))
        else true)) := by
  unfold arrivalKeepRet legArrOK
  by_cases hC : (leg = "return" ∨ leg = "any") ∧ (r.return_arrive_time.getD "") ≠ ""
  · cases keep with
    | false =>
      rw [if_neg fun h => Bool.false_ne_true h.2.2, Bool.false_and]
    | true =>
      rw [if_pos ⟨hC.1, hC.2, rfl⟩, if_pos hC, Bool.true_and]
      cases parseISODT (r.return_arrive_time.getD "") with
      | none => rfl
      | some a => cases hb : dtLt d a <;> simp [hb]
  · have hn : ¬((leg = "return" ∨ leg = "any") ∧ (r.return_arrive_time.getD "") ≠ "" ∧
        keep = true) := fun h => hC ⟨h.1, h.2.1⟩
    rw [if_neg hn, if_neg hC, Bool.and_true]

/-- `arrivalKeep` splits into the conjunction of the two independent leg
verdicts. -/
theorem arrivalKeep_split (leg : String) (d : DateTimeV) (r : FlightResult) :
    arrivalKeep leg d r =
      ((if (leg = "outbound" ∨ leg = "any") ∧ r.arrive_time ≠ "" then
          legArrOK d (parseISODT r.arrive_time)
        else true) &&
       (if (leg = "return" ∨ leg = "any") ∧ (r.return_arrive_time.getD "") ≠ "" then
          legArrOK d (parseISODT (r.return_arrive_time.getD ""))
        else true)) := by
  rw [arrivalKeep, arrivalKeepRet_eq, arrivalKeepOut_eq]

/-- The keep verdict of one leg check as a proposition. -/
theorem legCheck_iff (C : Prop) [Decidable C] (p : Option DateTimeV) (d : DateTimeV) :
    ((if C then legArrOK d p else true) = true) ↔
      (C → ∀ a, p = some a → dtLt d a = false) := by
  by_cases hC : C
  · rw [if_pos hC]
    cases p with
    | none => simp [legArrOK, hC]
    | some a => cases hd : dtLt d a <;> simp [legArrOK, hC, hd]
  · rw [if_neg hC]
    simp [hC]

/-- C6: an `arrival_before` filter with a parseable deadline keeps exactly the
results all of whose checked legs (outbound for leg `outbound`/`any`; return,
when present, for leg `return`/`any`) with parseable arrivals are at or before
the deadline; unparseable or missing arrivals never cause removal. -/
theorem arrivalFilter_boundary (pf : PostFilter) (results : List FlightResult)
    (d : DateTimeV) (hty : pf.filter_type = "arrival_before")
    (hp : parseISODT pf.value = some d) :
    applyPostFilters results [pf] = results.filter (arrivalKeep pf.leg d) ∧
    ∀ r : FlightResult, arrivalKeep pf.leg d r = true ↔
      ((((pf.leg = "outbound" ∨ pf.leg = "any") ∧ r.arrive_time ≠ "") →
         ∀ a, parseISODT r.arrive_time = some a → dtLt d a = false) ∧
       (((pf.leg = "return" ∨ pf.leg = "any") ∧ (r.return_arrive_time.getD "") ≠ "") →
         ∀ a, parseISODT (r.return_arrive_time.getD "") = some a → dtLt d a = false)) := by
  constructor
  · rw [applyPostFilters, applyPostFilters,
      if_neg (by rw [hty]; decide), if_pos hty, hp]
  · intro r
    rw [arrivalKeep_split, Bool.and_eq_true]
    exact and_congr (legCheck_iff _ _ _) (legCheck_iff _ _ _)

/-- Witness for C6: with deadline `2026-03-30T08:00`, an arrival at exactly
`08:00:00` is kept and one at `08:00:01` is removed. -/
theorem arrivalFilter_boundary_witness :
    applyPostFilters [rKeep, rDrop] [pfArr] = [rKeep] := by
  rw [(arrivalFilter_boundary pfArr [rKeep, rDrop] ⟨2026, 3, 30, 8, 0, 0⟩ rfl (by decide)).1]
  decide

/-- A filtered partition with its matches mapped, in order, is a permutation
of the pointwise-updated list. -/
theorem filter_map_append_perm {α : Type} (p : α → Bool) (f : α → α) (l : List α) :
    ((l.filter p).map f ++ l.filter fun x => !p x).Perm
      (l.map fun x => if p x then f x else x) := by
  induction l with
  | nil => simp
  | cons a t ih =>
    by_cases h : p a
    · simpa [h] using ih.cons (f a)
    · simpa [h] using List.perm_middle.trans (ih.cons a)

/-- C7: an `at_least_one_leg_airline` filter removes nothing — it flags the
results whose selected leg's airline contains the value case-insensitively and
moves them, in order, before the unflagged rest. -/
theorem airlinePref_partition (pf : PostFilter) (results : List FlightResult)
    (hty : pf.filter_type = "at_least_one_leg_airline") :
    applyPostFilters results [pf] =
      ((results.filter fun r => airlineMatches r (strLower pf.value) pf.leg).map
        fun r => { r with preferred := true }) ++
      (results.filter fun r => !airlineMatches r (strLower pf.value) pf.leg) ∧
    (applyPostFilters results [pf]).length = results.length ∧
    (applyPostFilters results [pf]).Perm
      (results.map fun r =>
        if airlineMatches r (strLower pf.value) pf.leg then { r with preferred := true }
        else r) := by
  have heq : applyPostFilters results [pf] =
      ((results.filter fun r => airlineMatches r (strLower pf.value) pf.leg).map
        fun r => { r with preferred := true }) ++
      (results.filter fun r => !airlineMatches r (strLower pf.value) pf.leg) := by
    rw [applyPostFilters, applyPostFilters, if_pos hty]
  have hperm := filter_map_append_perm
    (fun r => airlineMatches r (strLower pf.value) pf.leg)
    (fun r => { r with preferred := true }) results
  refine ⟨heq, ?_, by rw [heq]; exact hperm⟩
  rw [heq, hperm.length_eq, List.length_map]

/-- Witness for C7: three concrete results, one matching Frontier — the match
comes first and is flagged, the other two keep their order, none removed. -/
theorem airlinePref_partition_witness :
    (applyPostFilters [rOther, rKeep, rOther] [pfAirline]).length = 3 ∧
    applyPostFilters [rOther, rKeep, rOther] [pfAirline] =
      [{ rKeep with preferred := true }, rOther, rOther] := by
  refine ⟨(airlinePref_partition pfAirline [rOther, rKeep, rOther] rfl).2.1, ?_⟩
  rw [(airlinePref_partition pfAirline [rOther, rKeep, rOther] rfl).1]
  decide

/-- Setting a key makes it present. -/
theorem getParam_setParam (ps : Params) (k v : String) :
    getParam (setParam ps k v) k = some v := by
  induction ps with
  | nil => simp [setParam, getParam]
  | cons p rest ih =>
    obtain ⟨k', v'⟩ := p
    by_cases h : k' = k
    · simp [setParam, h, getParam]
    · simp [setParam, h, getParam, ih]

/-- Every upstream call the return-leg lookup logs carries a
`departure_token` parameter. -/
theorem lookupReturnGroup_calls (cfg : Config) (u : Params → UpstreamResp)
    (bp : Params) (tok : String) (st : FetchState) :
    ∀ p ∈ (lookupReturnGroup cfg u bp tok st).2.calls,
      p ∈ st.calls ∨ (getParam p "departure_token").isSome := by
  intro p hp
  simp only [lookupReturnGroup, callUpstream] at hp
  split at hp
  · exact Or.inl hp
  · split at hp
    · exact Or.inl hp
    · split at hp
      · rcases List.mem_append.mp hp with h | h
        · exact Or.inl h
        · rw [List.mem_singleton] at h
          subst h
          exact Or.inr (by rw [getParam_setParam]; rfl)
      · split at hp
        · rcases List.mem_append.mp hp with h | h
          · exact Or.inl h
          · rw [List.mem_singleton] at h
            subst h
            exact Or.inr (by rw [getParam_setParam]; rfl)
        · rcases List.mem_append.mp hp with h | h
          · exact Or.inl h
          · rw [List.mem_singleton] at h
            subst h
            exact Or.inr (by rw [getParam_setParam]; rfl)

/-- Every upstream call one enrichment step logs carries a
`departure_token` parameter. -/
theorem enrichOne_calls (cfg : Config) (u : Params → UpstreamResp) (params : Params)
    (g : FlightGroup) (st : FetchState) :
    ∀ p ∈ (enrichOne cfg u params g st).2.calls,
      p ∈ st.calls ∨ (getParam p "departure_token").isSome := by
  intro p hp
  simp only [enrichOne] at hp
  split at hp
  · exact Or.inl hp
  · split at hp
    · exact lookupReturnGroup_calls cfg u params _ st p hp
    · exact lookupReturnGroup_calls cfg u params _ st p hp

/-- Every upstream call the enrichment loop logs carries a
`departure_token` parameter. -/
theorem enrichFirstN_calls (cfg : Config) (u : Params → UpstreamResp) (params : Params) :
    ∀ (n : Nat) (gs : List FlightGroup) (st : FetchState),
      ∀ p ∈ (enrichFirstN cfg u params n gs st).2.calls,
        p ∈ st.calls ∨ (getParam p "departure_token").isSome := by
  intro n
  induction n with
  | zero =>
    intro gs st p hp
    rw [enrichFirstN] at hp
    exact Or.inl hp
  | succ n ih =>
    intro gs st p hp
    cases gs with
    | nil =>
      rw [enrichFirstN] at hp
      exact Or.inl hp
    | cons g rest =>
      simp only [enrichFirstN] at hp
      rcases ih rest (enrichOne cfg u params g st).2 p hp with h | h
      · exact enrichOne_calls cfg u params g st p h
      · exact Or.inr h

/-- Every upstream call `_enrich_return_legs` logs carries a
`departure_token` parameter. -/
theorem enrichReturnLegs_calls (cfg : Config) (u : Params → UpstreamResp) (params : Params)
    (best other : List FlightGroup) (st : FetchState) :
    ∀ p ∈ (enrichReturnLegs cfg u params best other st).2.calls,
      p ∈ st.calls ∨ (getParam p "departure_token").isSome := by
  intro p hp
  simp only [enrichReturnLegs] at hp
  exact enrichFirstN_calls cfg u params 5 (best ++ other) st p hp

/-- C5: on a fresh cache hit `fetch_combination` issues no primary upstream
call — every newly logged call is a `departure_token` enrichment lookup, and
the primary parameter dict (which has no such key) is never called — and for
a combination that triggers no enrichment the state, usage count included, is
returned unchanged. -/
theorem cacheHit_no_primary_call (cfg : Config) (u : Params → UpstreamResp)
    (combo : SearchCombination) (st : FetchState)
    (hhit : (cacheLookup cfg st (buildParams cfg combo)).isSome = true) :
    (∀ p ∈ (fetchCombination cfg u combo st).2.calls,
      p ∈ st.calls ∨ (getParam p "departure_token").isSome) ∧
    (¬(combo.type = 1 ∧ (combo.return_date.getD "") ≠ "") →
      (fetchCombination cfg u combo st).2 = st) := by
  obtain ⟨resp, hresp⟩ := Option.isSome_iff_exists.mp hhit
  constructor
  · intro p hp
    by_cases hq : st.usageCount ≥ cfg.SERPAPI_MONTHLY_LIMIT
    · rw [fetchCombination, if_pos hq] at hp
      exact Or.inl hp
    · simp only [fetchCombination, if_neg hq, hresp] at hp
      by_cases hrt : combo.type = 1 ∧ (combo.return_date.getD "") ≠ ""
      · rw [if_pos hrt] at hp
        exact enrichReturnLegs_calls cfg u (buildParams cfg combo) resp.1 resp.2 st p hp
      · rw [if_neg hrt] at hp
        exact Or.inl hp
  · intro hone
    by_cases hq : st.usageCount ≥ cfg.SERPAPI_MONTHLY_LIMIT
    · rw [fetchCombination, if_pos hq]
    · simp only [fetchCombination, if_neg hq, hresp, if_neg hone]

/-- Witness for C5: a concrete cache hit on a no-enrichment combination
leaves the state — usage counter, cache and call log — unchanged. -/
theorem cacheHit_no_primary_call_witness :
    (fetchCombination cfgW uEmpty comboOW stHit).2 = stHit :=
  (cacheHit_no_primary_call cfgW uEmpty comboOW stHit (by decide)).2 (by decide)

/-- C9: a successful upstream response with zero flight groups — in both the
one-way-leg and the return-leg lookup — neither increments the usage counter
nor stores a cache entry: the state only records that the call was made, and
an identical later lookup still misses the cache. -/
theorem emptySuccess_no_effect :
    (∀ (cfg : Config) (u : Params → UpstreamResp) (params : Params) (st : FetchState),
      cacheLookup cfg st params = none →
      st.usageCount < cfg.SERPAPI_MONTHLY_LIMIT →
      (u params).error = "" →
      (u params).best_flights = [] →
      (u params).other_flights = [] →
      fetchOneWayGroups cfg u params st = ([], { st with calls := st.calls ++ [params] }) ∧
      cacheLookup cfg { st with calls := st.calls ++ [params] } params = none) ∧
    (∀ (cfg : Config) (u : Params → UpstreamResp) (bp : Params) (tok : String)
        (st : FetchState),
      cacheLookup cfg st (setParam bp "departure_token" tok) = none →
      st.usageCount < cfg.SERPAPI_MONTHLY_LIMIT →
      (u (setParam bp "departure_token" tok)).error = "" →
      (u (setParam bp "departure_token" tok)).best_flights = [] →
      (u (setParam bp "departure_token" tok)).other_flights = [] →
      lookupReturnGroup cfg u bp tok st =
        (none, { st with calls := st.calls ++ [setParam bp "departure_token" tok] }) ∧
      cacheLookup cfg { st with calls := st.calls ++ [setParam bp "departure_token" tok] }
        (setParam bp "departure_token" tok) = none) := by
  constructor
  · intro cfg u params st hmiss hq herr hb ho
    refine ⟨?_, hmiss⟩
    simp [fetchOneWayGroups, callUpstream, hmiss, herr, hb, ho, Nat.not_le.mpr hq]
  · intro cfg u bp tok st hmiss hq herr hb ho
    refine ⟨?_, hmiss⟩
    simp [lookupReturnGroup, callUpstream, hmiss, herr, hb, ho, Nat.not_le.mpr hq]

/-- Witness for C9: a concrete empty-but-successful one-way lookup leaves
usage and cache unchanged, logging only the call. -/
theorem emptySuccess_no_effect_witness :
    fetchOneWayGroups cfgW uEmpty (buildParams cfgW comboOW) stFresh =
      ([], { stFresh with calls := [buildParams cfgW comboOW] }) :=
  (emptySuccess_no_effect.1 cfgW uEmpty (buildParams cfgW comboOW) stFresh
    (by decide) (by decide) rfl rfl rfl).1

/-- At quota, `fetch_combination` returns the empty dict without touching the
state. -/
theorem fetchCombination_quota (cfg : Config) (u : Params → UpstreamResp)
    (combo : SearchCombination) (st : FetchState)
    (hq : cfg.SERPAPI_MONTHLY_LIMIT ≤ st.usageCount) :
    fetchCombination cfg u combo st = (.empty, st) := by
  rw [fetchCombination, if_pos hq]

/-- An empty cache file never yields a hit. -/
theorem cacheLookup_empty (cfg : Config) (st : FetchState) (params : Params)
    (hc : st.cache = []) : cacheLookup cfg st params = none := by
  unfold cacheLookup
  rw [hc]
  by_cases h : cfg.NO_CACHE
  · rw [if_pos h]
  · rw [if_neg h]
    rfl

/-- At quota with an empty cache, a one-way lookup returns no groups and
leaves the state untouched. -/
theorem fetchOneWayGroups_quota (cfg : Config) (u : Params → UpstreamResp)
    (params : Params) (st : FetchState)
    (hq : cfg.SERPAPI_MONTHLY_LIMIT ≤ st.usageCount) (hc : st.cache = []) :
    fetchOneWayGroups cfg u params st = ([], st) := by
  rw [fetchOneWayGroups, cacheLookup_empty cfg st params hc, if_pos hq]

/-- At quota with an empty cache, the main loop leaves the state untouched and
appends only empty responses and independent units with empty group lists. -/
theorem fetchLoop_quota (cfg : Config) (u : Params → UpstreamResp)
    (combos : List SearchCombination) (st : FetchState)
    (hq : cfg.SERPAPI_MONTHLY_LIMIT ≤ st.usageCount) (hc : st.cache = []) :
    (fetchLoop cfg u combos st).2 = st ∧
    ∀ raw ∈ (fetchLoop cfg u combos st).1,
      raw = .empty ∨ ∃ ci, raw = RawResponse.independent ci [] [] := by
  induction combos with
  | nil => exact ⟨rfl, by simp [fetchLoop]⟩
  | cons combo rest ih =>
    have how : ∀ params, fetchOneWayGroups cfg u params st = ([], st) :=
      fun params => fetchOneWayGroups_quota cfg u params st hq hc
    by_cases hrt : combo.type = 1 ∧ (combo.return_date.getD "") ≠ ""
    · rw [fetchLoop, fetchCombination_quota cfg u combo st hq]
      simp only [isFatal, Bool.false_eq_true, if_false, if_pos hrt, how]
      refine ⟨ih.1, ?_⟩
      intro raw hr
      rcases List.mem_cons.mp hr with rfl | hr
      · exact Or.inl rfl
      · rcases List.mem_cons.mp hr with rfl | hr
        · exact Or.inr ⟨_, rfl⟩
        · exact ih.2 raw hr
    · rw [fetchLoop, fetchCombination_quota cfg u combo st hq]
      simp only [isFatal, Bool.false_eq_true, if_false, if_neg hrt]
      refine ⟨ih.1, ?_⟩
      intro raw hr
      rcases List.mem_cons.mp hr with rfl | hr
      · exact Or.inl rfl
      · exact ih.2 raw hr

/-- At quota with an empty cache, the inner dual-fetch filter loop appends only
independent units with empty group lists and leaves the state untouched. -/
theorem dualFetchFilters_quota (cfg : Config) (u : Params → UpstreamResp)
    (combo : SearchCombination) (afs : List PostFilter) (st : FetchState)
    (hq : cfg.SERPAPI_MONTHLY_LIMIT ≤ st.usageCount) (hc : st.cache = []) :
    (dualFetchFilters cfg u combo afs st).2 = st ∧
    ∀ raw ∈ (dualFetchFilters cfg u combo afs st).1,
      ∃ ci, raw = RawResponse.independent ci [] [] := by
  induction afs with
  | nil => exact ⟨rfl, by simp [dualFetchFilters]⟩
  | cons af rest ih =>
    have how : ∀ params, fetchOneWayGroups cfg u params st = ([], st) :=
      fun params => fetchOneWayGroups_quota cfg u params st hq hc
    rw [dualFetchFilters]
    simp only [dualFetchOne, how]
    refine ⟨ih.1, ?_⟩
    intro raw hr
    rcases List.mem_cons.mp hr with rfl | hr
    · exact ⟨_, rfl⟩
    · exact ih.2 raw hr

/-- At quota with an empty cache, the dual-fetch loop appends only independent
units with empty group lists and leaves the state untouched. -/
theorem dualFetchLoop_quota (cfg : Config) (u : Params → UpstreamResp)
    (afs : List PostFilter) (combos : List SearchCombination) (st : FetchState)
    (hq : cfg.SERPAPI_MONTHLY_LIMIT ≤ st.usageCount) (hc : st.cache = []) :
    ∀ seen, (dualFetchLoop cfg u afs combos seen st).2 = st ∧
      ∀ raw ∈ (dualFetchLoop cfg u afs combos seen st).1,
        ∃ ci, raw = RawResponse.independent ci [] [] := by
  induction combos with
  | nil => intro seen; exact ⟨rfl, by simp [dualFetchLoop]⟩
  | cons combo rest ih =>
    intro seen
    rw [dualFetchLoop]
    by_cases hskip : routeKey combo ∈ seen ∨ combo.type ≠ 1 ∨ (combo.return_date.getD "") = ""
    · rw [if_pos hskip]
      exact ih seen
    · rw [if_neg hskip]
      have hdf := dualFetchFilters_quota cfg u combo afs st hq hc
      simp only [hdf.1]
      refine ⟨(ih (routeKey combo :: seen)).1, ?_⟩
      intro raw hr
      rcases List.mem_append.mp hr with hr | hr
      · exact hdf.2 raw hr
      · exact (ih (routeKey combo :: seen)).2 raw hr

/-- A list consisting of empty responses and empty independent units yields no
results. -/
theorem processResults_empties {l : List RawResponse}
    (h : ∀ raw ∈ l, raw = .empty ∨ ∃ ci, raw = RawResponse.independent ci [] []) :
    processResults l = [] := by
  suffices haux : ∀ (l' : List RawResponse),
      (∀ raw ∈ l', raw = .empty ∨ ∃ ci, raw = RawResponse.independent ci [] []) →
      ∀ seen, processResultsAux seen l' = [] from haux l h []
  intro l'
  induction l' with
  | nil => intro _ _; rfl
  | cons resp rest ih =>
    intro hall seen
    have hresp : respResults resp = [] := by
      rcases hall resp (List.mem_cons_self _ _) with rfl | ⟨ci, rfl⟩
      · rfl
      · simp [respResults, buildIndependentPairs]
    rw [processResultsAux, hresp]
    simp only [dedupInto]
    rw [List.nil_append]
    exact ih (fun raw hr => hall raw (List.mem_cons_of_mem _ hr)) seen

/-- C1 (amended): when the stored usage count is already at the monthly limit
and the cache is empty, no combination issues an upstream call and the state
is unchanged; however the loop does not return early — it runs through every
combination (and the dual-fetch), appending an empty response (and, for round
trips, an independent unit with empty group lists) for each, so the processed
result set is exactly that of the already-gathered prefix and no exception is
raised. -/
theorem quotaBlocked_batch (cfg : Config) (u : Params → UpstreamResp)
    (combos : List SearchCombination) (pfs : List PostFilter) (st : FetchState)
    (hq : cfg.SERPAPI_MONTHLY_LIMIT ≤ st.usageCount) (hc : st.cache = []) :
    (fetchAll cfg u combos pfs st).2 = st ∧
    (∀ raw ∈ (fetchAll cfg u combos pfs st).1,
      raw = .empty ∨ ∃ ci, raw = RawResponse.independent ci [] []) ∧
    processResults (fetchAll cfg u combos pfs st).1 = [] := by
  have hlp := fetchLoop_quota cfg u combos st hq hc
  have hmemall : ∀ raw ∈ (fetchAll cfg u combos pfs st).1,
      raw = .empty ∨ ∃ ci, raw = RawResponse.independent ci [] [] := by
    intro raw hr
    by_cases hcond : (pfs.filter fun f => f.filter_type == "at_least_one_leg_airline") ≠ [] ∧
        combos ≠ []
    · rw [fetchAll] at hr
      rw [if_pos hcond] at hr
      rw [hlp.1] at hr
      rcases List.mem_append.mp hr with hr | hr
      · exact hlp.2 raw hr
      · rcases (dualFetchLoop_quota cfg u _ combos st hq hc []).2 raw hr with ⟨ci, rfl⟩
        exact Or.inr ⟨ci, rfl⟩
    · rw [fetchAll] at hr
      rw [if_neg hcond] at hr
      exact hlp.2 raw hr
  refine ⟨?_, hmemall, processResults_empties hmemall⟩
  by_cases hcond : (pfs.filter fun f => f.filter_type == "at_least_one_leg_airline") ≠ [] ∧
      combos ≠ []
  · rw [fetchAll, if_pos hcond, hlp.1]
    exact (dualFetchLoop_quota cfg u _ combos st hq hc []).1
  · rw [fetchAll, if_neg hcond]
    exact hlp.1

/-- Witness for C1 (amended): a concrete quota-blocked batch leaves the state
unchanged and produces no flight results. -/
theorem quotaBlocked_batch_witness :
    (fetchAll cfgW uEmpty [comboOW] [] stAtLimit).2 = stAtLimit ∧
    processResults (fetchAll cfgW uEmpty [comboOW] [] stAtLimit).1 = [] :=
  ⟨(quotaBlocked_batch cfgW uEmpty [comboOW] [] stAtLimit (by decide) rfl).1,
   (quotaBlocked_batch cfgW uEmpty [comboOW] [] stAtLimit (by decide) rfl).2.2⟩

/-- Counterexample for C1 as stated: with the usage count already at the limit
the claim predicts an early return with only the results already gathered —
the empty list — but `fetch_all` runs the whole loop and returns one (empty)
raw response per combination. -/
theorem quotaBlocked_counterexample :
    cfgW.SERPAPI_MONTHLY_LIMIT ≤ stAtLimit.usageCount ∧
    (fetchAll cfgW uEmpty [comboOW] [] stAtLimit).1 ≠ ([] : List RawResponse) := by
  exact ⟨by decide, by decide⟩

/-- C2 (amended): a fatal invalid-credential upstream response halts the main
loop immediately from any loop state — the sentinel is appended, exactly the
one failing call was issued, the usage counter and cache are untouched, and no
further combination is attempted; when no `at_least_one_leg_airline`
post-filter is present, `fetch_all` likewise returns just the sentinel, which
contributes no entry to the processed result list. -/
theorem fatalError_halts (cfg : Config) (u : Params → UpstreamResp)
    (c : SearchCombination) (rest : List SearchCombination) (pfs : List PostFilter)
    (st : FetchState)
    (hq : st.usageCount < cfg.SERPAPI_MONTHLY_LIMIT)
    (hmiss : cacheLookup cfg st (buildParams cfg c) = none)
    (herr : (u (buildParams cfg c)).error ≠ "")
    (hfat : strContainsSub (strLower (u (buildParams cfg c)).error) "invalid api key" = true)
    (haf : (pfs.filter fun f => f.filter_type == "at_least_one_leg_airline") = []) :
    fetchLoop cfg u (c :: rest) st =
      ([RawResponse.fatal (u (buildParams cfg c)).error],
       { st with calls := st.calls ++ [buildParams cfg c] }) ∧
    fetchAll cfg u (c :: rest) pfs st =
      ([RawResponse.fatal (u (buildParams cfg c)).error],
       { st with calls := st.calls ++ [buildParams cfg c] }) ∧
    processResults [RawResponse.fatal (u (buildParams cfg c)).error] = [] := by
  have hfc : fetchCombination cfg u c st =
      (.fatal (u (buildParams cfg c)).error,
       { st with calls := st.calls ++ [buildParams cfg c] }) := by
    simp only [fetchCombination, callUpstream, if_neg (Nat.not_le.mpr hq), hmiss,
      if_pos herr, if_pos hfat]
  have hloop : fetchLoop cfg u (c :: rest) st =
      ([RawResponse.fatal (u (buildParams cfg c)).error],
       { st with calls := st.calls ++ [buildParams cfg c] }) := by
    rw [fetchLoop, hfc]
    simp only [isFatal, decide_eq_true herr, if_true]
  refine ⟨hloop, ?_, rfl⟩
  rw [fetchAll, haf]
  simp only [ne_eq, not_true_eq_false, false_and, if_false, hloop]

/-- Witness for C2 (amended): a concrete fatal response halts the batch with
just the sentinel and a single logged call. -/
theorem fatalError_halts_witness :
    fetchAll cfgNC uFatal [comboRT] [] stFresh =
      ([RawResponse.fatal "Invalid API key"],
       { stFresh with calls := [buildParams cfgNC comboRT] }) :=
  (fatalError_halts cfgNC uFatal comboRT [] [] stFresh (by decide) (by decide)
    (by decide) (by decide) rfl).2.1

/-- Counterexample for C2 as stated: with an `at_least_one_leg_airline`
post-filter present, the post-loop dual-fetch still runs after the fatal
sentinel — the returned list does not end at the sentinel and more upstream
calls than the single failing one are attempted. -/
theorem fatalError_halts_counterexample :
    (fetchAll cfgNC uFatal [comboRT] [pfAirline] stFresh).1 ≠
      [RawResponse.fatal "Invalid API key"] ∧
    1 < (fetchAll cfgNC uFatal [comboRT] [pfAirline] stFresh).2.calls.length := by
  exact ⟨by decide, by decide⟩

end FlightSearch
